import Mathlib

/-!
# Verification of the Web3-Dapp-Marketplace frontend core

This file gives a shallow embedding of the marketplace frontend logic
(`frontend/src/components/pages/DigitalProductListing.tsx`, which bundles the
listing page and the `useMarketplace` hook, and
`frontend/src/contracts/contractConfig.ts`) and proves properties of it.

JavaScript strings are modelled as Lean `String`/`List Char`; JavaScript
numbers appearing in validation (`parseFloat` results) are modelled as
`Option ℚ` (`none` standing for `NaN`); the bigint wei amounts of ethers v6
are modelled as `ℕ`; thrown JavaScript errors are modelled with `Except` or
explicit error-object records mirroring the fields the code inspects.
-/

/-! ## Character and digit-string primitives -/

/-- Numeric value of a decimal digit character (`'0'` ↦ 0, ..., `'9'` ↦ 9). -/
def charVal (c : Char) : ℕ := c.toNat - 48

/-- The decimal digit character for `n` (meaningful for `n < 10`). -/
def digitChar (n : ℕ) : Char := Char.ofNat (48 + n)

/-- Value of a most-significant-first digit string, as JavaScript number
parsing computes it. -/
def digitsToNat (l : List Char) : ℕ := l.foldl (fun a c => 10 * a + charVal c) 0

/-- Longest digit-only front segment of a character list, with the rest. -/
def takeDigits : List Char → List Char × List Char
  | [] => ([], [])
  | c :: t =>
    if c.isDigit then
      let p := takeDigits t
      (c :: p.1, p.2)
    else ([], c :: t)

/-- Split a character list at its first `'.'`; the second component is `none`
when there is no dot. -/
def splitDot : List Char → List Char × Option (List Char)
  | [] => ([], none)
  | c :: t =>
    if c = '.' then ([], some t)
    else
      let p := splitDot t
      (c :: p.1, p.2)

/-- Little-endian digit characters of `n`, with explicit fuel. -/
def natDigitsAux : ℕ → ℕ → List Char
  | 0, _ => []
  | _ + 1, 0 => []
  | f + 1, n => digitChar (n % 10) :: natDigitsAux f (n / 10)

/-- Most-significant-first decimal digit characters of `n` (`['0']` for 0),
as JavaScript `toString` renders a nonnegative integer. -/
def natToDigits (n : ℕ) : List Char :=
  if n = 0 then ['0'] else (natDigitsAux (n + 1) n).reverse

/-- JavaScript `toString()` of a nonnegative integer. -/
def natToString (n : ℕ) : String := ⟨natToDigits n⟩

/-- Drop trailing `'0'` characters. -/
def trimRightZeros (l : List Char) : List Char :=
  (l.reverse.dropWhile (fun c => c = '0')).reverse

/-! ## JavaScript string helpers used by the source -/

/-- Models JavaScript `String.prototype.trim` (drop whitespace at both
ends). -/
def jsTrim (s : String) : String :=
  ⟨((s.data.dropWhile Char.isWhitespace).reverse.dropWhile Char.isWhitespace).reverse⟩

/-- `p` occurs as a front segment of `l`. -/
def frontSeg (p l : List Char) : Bool :=
  match p, l with
  | [], _ => true
  | _ :: _, [] => false
  | a :: p', b :: l' => a = b && frontSeg p' l'

/-- Models JavaScript `String.prototype.includes` (substring test). -/
def strIncludes (s sub : String) : Bool :=
  go s.data sub.data
where
  go : List Char → List Char → Bool
    | l, p =>
      frontSeg p l ||
        match l with
        | [] => false
        | _ :: t => go t p

/-- Models the JavaScript truthiness-based `a || b` on optional strings:
the first operand that is present and nonempty, else the default `d`. -/
def jsOrD (o : Option String) (d : String) : String :=
  match o with
  | some s => if s = "" then d else s
  | none => d

/-- `includes` lifted to an optional receiver (JavaScript `o?.includes(sub)`
coerced to boolean: `none` gives `false`). -/
def optIncl (o : Option String) (sub : String) : Bool :=
  match o with
  | some s => strIncludes s sub
  | none => false

/-! ## JavaScript number parsing -/

/-- Models JavaScript `parseFloat` on the inputs this code base feeds it
(no exponent notation, no leading whitespace): an optional sign, a digit
segment, an optional dot and fraction segment, parsed as an exact rational;
`none` models `NaN`. -/
def jsParseFloatCore (l : List Char) : Option ℚ :=
  let p := takeDigits l
  let f : List Char :=
    match p.2 with
    | '.' :: t => (takeDigits t).1
    | _ => []
  if p.1 = [] ∧ f = [] then none
  else some ((digitsToNat p.1 : ℚ) + (digitsToNat f : ℚ) / 10 ^ f.length)

/-- Dispatch on an optional leading sign, as `parseFloat`/`parseInt` do. -/
def jsParseFloat (s : String) : Option ℚ :=
  if s.data.head? = some '-' then (jsParseFloatCore s.data.tail).map (fun q => -q)
  else if s.data.head? = some '+' then jsParseFloatCore s.data.tail
  else jsParseFloatCore s.data

/-- Models JavaScript `parseInt` on the inputs this code base feeds it:
an optional sign and the longest digit front segment; `none` models `NaN`. -/
def jsParseIntCore (l : List Char) : Option ℤ :=
  let p := takeDigits l
  if p.1 = [] then none else some (digitsToNat p.1 : ℤ)

/-- `parseInt` with its optional leading sign. -/
def jsParseInt (s : String) : Option ℤ :=
  if s.data.head? = some '-' then (jsParseIntCore s.data.tail).map (fun z => -z)
  else if s.data.head? = some '+' then jsParseIntCore s.data.tail
  else jsParseIntCore s.data

/-- JavaScript `isNaN(parseFloat(s))` negated: `s` parses to a number. -/
def jsNumeric (s : String) : Bool := (jsParseFloat s).isSome

/-- The test `parseFloat(s) <= 0` of the source, with `NaN <= 0` false. -/
def jsLeZero (o : Option ℚ) : Bool :=
  match o with
  | some q => decide (q ≤ 0)
  | none => false

/-- The test `parseFloat(s) > 5000` of the source, with `NaN > 5000` false. -/
def jsGtCap (o : Option ℚ) : Bool :=
  match o with
  | some q => decide ((5000 : ℚ) < q)
  | none => false

/-! ## Decimal strings and the ethers v6 unit helpers -/

/-- Structure of a plain decimal string: the whole-part digits and the
fraction digits (empty when there is no dot).  `none` when the string is not
of the form `digits` or `digits.digits`. -/
def decParts (s : String) : Option (List Char × List Char) :=
  match splitDot s.data with
  | (w, none) =>
    if w ≠ [] ∧ w.all Char.isDigit then some (w, []) else none
  | (w, some f) =>
    if w ≠ [] ∧ f ≠ [] ∧ w.all Char.isDigit ∧ f.all Char.isDigit then
      some (w, f)
    else none

/-- Exact numeric value denoted by a plain decimal string. -/
def decValue (s : String) : Option ℚ :=
  (decParts s).map (fun p => (digitsToNat p.1 : ℚ) + (digitsToNat p.2 : ℚ) / 10 ^ p.2.length)

/-- Models ethers v6 `parseEther` on the nonnegative amounts this code base
converts: a plain decimal string with at most 18 fraction digits becomes its
value in wei (`value · 10¹⁸`); anything else throws, modelled as `none`. -/
def parseEtherModel (s : String) : Option ℕ :=
  match decParts s with
  | some (w, f) =>
    if f.length ≤ 18 then
      some (digitsToNat w * 10 ^ 18 + digitsToNat f * 10 ^ (18 - f.length))
    else none
  | none => none

/-- The 18-character zero-padded fraction block of `r < 10¹⁸`. -/
def frac18 (r : ℕ) : List Char :=
  let l := (natDigitsAux 18 r).reverse
  List.replicate (18 - l.length) '0' ++ l

/-- Models ethers v6 `formatEther` on a nonnegative wei amount: whole part,
a dot, and the fraction with trailing zeros trimmed but at least one digit
kept (`formatEther(10^18) = "1.0"`). -/
def formatEtherModel (m : ℕ) : String :=
  let f := trimRightZeros (frac18 (m % 10 ^ 18))
  ⟨natToDigits (m / 10 ^ 18) ++ '.' :: (if f = [] then ['0'] else f)⟩

/-- Embeds `bdagToWei` of `contractConfig.ts`: rejects empty or
non-numeric input, then converts with `parseEther`; every failure is
rethrown as the single message below. -/
def bdagToWei (bdag : String) : Except String String :=
  if bdag = "" ∨ jsNumeric bdag = false then
    Except.error "Failed to convert BDAG to Wei"
  else
    match parseEtherModel bdag with
    | some m => Except.ok (natToString m)
    | none => Except.error "Failed to convert BDAG to Wei"

/-- Embeds `weiToBdag` of `contractConfig.ts`: empty or non-numeric input
gives `"0"`; a nonnegative integer wei string is formatted with
`formatEther`; any other numeric input makes `formatEther` throw, which the
source catches, returning `"0"`. -/
def weiToBdag (wei : String) : String :=
  if wei = "" ∨ jsNumeric wei = false then "0"
  else if wei.data ≠ [] ∧ wei.data.all Char.isDigit then
    formatEtherModel (digitsToNat wei.data)
  else "0"

/-! ## Fee preview of the listing page (DigitalProductListing lines 299-305) -/

/-- Round a rational to 4 decimal places, to nearest: models JavaScript
`toFixed(4)` (whose value, read back as a number, is the nearest multiple of
`10⁻⁴`; ties cannot arise at the concrete inputs used below). -/
def round4 (q : ℚ) : ℚ := (round (q * 10000) : ℤ) / 10000

/-- Numeric value of the fee shown by the listing preview: embeds
`(parseFloat(formData.price) * 0.025).toFixed(4)` with `p` the parsed
price. -/
def marketplaceFeeDisplay (p : ℚ) : ℚ := round4 (p * (25 / 1000))

/-- Numeric value of the seller-proceeds shown by the listing preview:
embeds `(parseFloat(formData.price) * 0.975).toFixed(4)`. -/
def sellerReceivesDisplay (p : ℚ) : ℚ := round4 (p * (975 / 1000))

/-! ## Listing-form validation (DigitalProductListing `handleSubmit`) -/

/-- Embeds the client-side checks of `handleSubmit` (lines 120-174), in
source order, with the exact error messages it sets.  `account` and
`mainFile` model the wallet connection and the uploaded file being
present. -/
def handleSubmitValidate (account : Bool) (name description price : String)
    (mainFile : Bool) : Except String Unit :=
  if account = false then Except.error "Please connect your wallet first"
  else if jsTrim name = "" then Except.error "Product name cannot be empty"
  else if 100 < name.data.length then
    Except.error "Product name too long (max 100 characters)"
  else if 500 < description.data.length then
    Except.error "Description too long (max 500 characters)"
  else if price = "" ∨ jsLeZero (jsParseFloat price) then
    Except.error "Product price must be greater than 0"
  else if jsGtCap (jsParseFloat price) then
    Except.error "Product price too high (max 5000 BDAG)"
  else if mainFile = false then
    Except.error "Please upload your digital product file"
  else Except.ok ()

/-- Embeds `handlePauseError`’s detection test (lines 74-88): an error string
is treated as a pause error when it mentions the paused marketplace or
maintenance. -/
def handlePauseErrorDetects (error : String) : Bool :=
  strIncludes error "marketplace is currently paused" || strIncludes error "maintenance"

/-! ## The `useMarketplace` hook: error objects and `handleContractError` -/

/-- The `error.code` values `handleContractError` inspects (string codes and
the numeric code 4001). -/
inductive ErrCode where
  | serverError
  | networkError
  | unpredictableGasLimit
  | callException
  | insufficientFunds
  | actionRejected
  | code4001
  | other
  deriving DecidableEq

/-- The nested `error.error` object of an ethers error, with the fields the
hook reads (`code`, `message`, `data`, and `error.error.error.message`). -/
structure NestedErr where
  code : Option ErrCode := none
  message : Option String := none
  data : Option String := none
  nestedMessage : Option String := none
  deriving DecidableEq

/-- A thrown JavaScript error as `handleContractError` sees it: the fields
of a plain `Error` or of an ethers error object. -/
structure ContractError where
  code : Option ErrCode := none
  message : Option String := none
  data : Option String := none
  reason : Option String := none
  inner : Option NestedErr := none
  deriving DecidableEq

/-- A plain `new Error(m)`: only `message` is set. -/
def plainErr (m : String) : ContractError := { message := some m }

/-- The pause message produced by the hook and by `handleContractError`. -/
def pausedMessage : String :=
  "The marketplace is currently paused for maintenance. Please try again later."

/-- The network-failure message of `handleContractError`. -/
def networkErrMessage : String :=
  "Network error: Unable to connect to blockchain. Please check your network connection and try again."

/-- The gas-estimation-failure message of `handleContractError`. -/
def gasErrMessage : String :=
  "Transaction failed: Unable to estimate gas. The transaction may fail. Please check your inputs and try again."

/-- Models `msg.replace(/^execution reverted: /, "")`. -/
def stripExecReverted (s : String) : String :=
  if frontSeg "execution reverted: ".data s.data then ⟨s.data.drop 20⟩ else s

/-- Field access `e.error?.code` on the model. -/
def innerCode (e : ContractError) : Option ErrCode := e.inner.bind (fun i => i.code)

/-- Field access `e.error?.message` on the model. -/
def innerMessage (e : ContractError) : Option String := e.inner.bind (fun i => i.message)

/-- Field access `e.error?.data` on the model. -/
def innerData (e : ContractError) : Option String := e.inner.bind (fun i => i.data)

/-- Field access `e.error?.error?.message` on the model. -/
def innerInnerMessage (e : ContractError) : Option String :=
  e.inner.bind (fun i => i.nestedMessage)

/-- Embeds `handleContractError` (hook lines 704-796): the cascade of error
classifications, in source order, producing the user-facing message. -/
def handleContractError (e : ContractError) (operation : String) : String :=
  if e.code = some ErrCode.serverError ∨ e.code = some ErrCode.networkError
      ∨ optIncl e.message "Internal JSON-RPC" ∨ optIncl e.message "JSON-RPC"
      ∨ innerCode e = some ErrCode.serverError then
    networkErrMessage
  else if e.code = some ErrCode.unpredictableGasLimit
      ∨ optIncl e.message "gas" ∨ optIncl e.message "Gas" then
    gasErrMessage
  else
    let fromCallException : Option String :=
      if e.code = some ErrCode.callException ∨ innerCode e = some ErrCode.callException then
        let errorMessage := jsOrD (innerMessage e) (jsOrD e.message "")
        if e.data = some "0xd93c0665" ∨ innerData e = some "0xd93c0665" then
          some pausedMessage
        else if strIncludes errorMessage "EnforcedPause"
            ∨ strIncludes errorMessage "execution reverted: EnforcedPause" then
          some pausedMessage
        else if strIncludes errorMessage "unknown custom error"
            ∧ e.data = some "0xd93c0665" then
          some pausedMessage
        else none
      else none
    match fromCallException with
    | some m => m
    | none =>
      if optIncl (innerInnerMessage e) "EnforcedPause" then "MARKETPLACE_PAUSED"
      else if optIncl e.reason "EnforcedPause" then "MARKETPLACE_PAUSED"
      else if innerData e = some "0xd93c0665" ∨ e.data = some "0xd93c0665" then
        "MARKETPLACE_PAUSED"
      else if e.code = some ErrCode.insufficientFunds then "Insufficient funds"
      else if e.code = some ErrCode.code4001 ∨ e.code = some ErrCode.actionRejected then
        "Transaction rejected"
      else
        match e.reason with
        | some r => if r = "" then fallbackTail e operation else r
        | none => fallbackTail e operation
where
  /-- The tail of the cascade: nested message, own message, generic text. -/
  fallbackTail (e : ContractError) (operation : String) : String :=
    match innerMessage e with
    | some m =>
      if m = "" then jsOrD e.message ("Failed to " ++ operation)
      else stripExecReverted m
    | none => jsOrD e.message ("Failed to " ++ operation)

/-! ## The contract side, modelled from the spec

`contracts/Marketplace.sol` is not part of the sources here; only the hook
that calls it is.  Its behaviour is therefore modelled from the spec: a
`paused` circuit breaker that makes every state-changing call revert with the
OpenZeppelin `EnforcedPause` custom error (selector `0xd93c0665`, the value
`handleContractError` itself tests for) while read-only calls stay
available, and per-call results for everything the spec leaves to the chain
(gas estimates, transaction hashes, receipts, view data). -/

/-- An on-chain product as returned by the `products` mapping and
`getProduct`. -/
structure OnChainProduct where
  id : ℕ := 0
  name : String := ""
  description : String := ""
  category : String := ""
  uri : String := ""
  thumbnailUri : String := ""
  price : ℕ := 0
  seller : String := ""
  salesCount : ℕ := 0
  deriving DecidableEq

/-- Outcome of one contract call: a value, or a thrown ethers error. -/
inductive CallResult (α : Type) where
  | ok (a : α)
  | err (e : ContractError)
  deriving DecidableEq

/-- Outcome of `tx.wait()`: a receipt with a status and optional hash, a
null receipt, or a thrown/timed-out wait carrying its error. -/
inductive WaitResult where
  | receipt (status : ℕ) (hash : Option String)
  | noReceipt
  | failed (e : ContractError)
  deriving DecidableEq

/-- Modelled from the spec: the `EnforcedPause` revert produced by every
state-changing call while the marketplace is paused, in the shape the hook
anticipates (a `CALL_EXCEPTION` whose `data` is the selector
`0xd93c0665`). -/
def enforcedPauseError : ContractError :=
  { code := some ErrCode.callException
    message := some "execution reverted: EnforcedPause"
    data := some "0xd93c0665" }

/-- Modelled from the spec: the chain environment of one hook call — the
ledger pause flag, its view data, and the chain-supplied outcomes of the
calls the hook makes when the ledger is not paused. -/
structure Chain where
  paused : Bool
  products : ℤ → CallResult OnChainProduct
  createGas : CallResult ℕ
  createSubmit : CallResult String
  createWait : WaitResult
  updateSubmit : CallResult String
  updateWait : WaitResult
  purchaseSubmit : CallResult String
  purchaseWait : WaitResult
  getProductView : ℤ → CallResult OnChainProduct
  availableView : CallResult (List OnChainProduct)
  sellerView : String → CallResult (List OnChainProduct)
  categoryView : String → CallResult (List OnChainProduct)
  statsView : CallResult (ℕ × ℕ × ℕ × ℕ)
  hasPurchasedView : ℤ → String → CallResult Bool

/-- Gas estimation for `createProduct`: reverts with `EnforcedPause` while
paused, otherwise as the chain supplies. -/
def Chain.gasForCreate (ch : Chain) : CallResult ℕ :=
  if ch.paused then CallResult.err enforcedPauseError else ch.createGas

/-- Submission of the `createProduct` transaction under the pause gate. -/
def Chain.submitCreateR (ch : Chain) : CallResult String :=
  if ch.paused then CallResult.err enforcedPauseError else ch.createSubmit

/-- Submission of the `updateProduct` transaction under the pause gate. -/
def Chain.submitUpdateR (ch : Chain) : CallResult String :=
  if ch.paused then CallResult.err enforcedPauseError else ch.updateSubmit

/-- Submission of the `purchaseProduct` transaction under the pause gate. -/
def Chain.submitPurchaseR (ch : Chain) : CallResult String :=
  if ch.paused then CallResult.err enforcedPauseError else ch.purchaseSubmit

/-! ## The `useMarketplace` hook: operations -/

/-- The deployed contract address of `contractConfig.ts`. -/
def CONTRACT_ADDRESS : String := "0xBCe850190CEF1F643450564118f0f346e3c1c40a"

/-- Hexadecimal digit test. -/
def isHexChar (c : Char) : Bool :=
  c.isDigit || ('a' ≤ c && c ≤ 'f') || ('A' ≤ c && c ≤ 'F')

/-- Models `ethers.isAddress` on the inputs used here: `0x` followed by 40
hexadecimal characters (the EIP-55 checksum of mixed-case inputs is not
modelled; the concrete inputs below are checksum-consistent). -/
def ethersIsAddress (s : String) : Bool :=
  match s.data with
  | '0' :: 'x' :: rest => rest.length = 40 && rest.all isHexChar
  | _ => false

/-- `getContract` (hook lines 693-702): fails without a signer, then
validates the configured contract address. -/
def getContractCheck (signer : Bool) : Except String Unit :=
  if signer = false then
    Except.error "No signer available. Please connect your wallet."
  else if ethersIsAddress CONTRACT_ADDRESS = false then
    Except.error "Invalid contract address"
  else Except.ok ()

/-- The external interactions a hook call performs, in order: view calls and
transaction submissions (an entry is recorded only for a call that reached
the chain). -/
inductive TxAction where
  | viewProducts (id : ℤ)
  | viewGetProduct (id : ℤ)
  | viewAvailable
  | viewSeller (addr : String)
  | viewCategory (category : String)
  | viewStats
  | viewHasPurchased (id : ℤ) (addr : String)
  | submitCreate (name description category : String) (priceWei : ℕ)
      (uri thumbnailUri : String) (gasLimit : ℕ)
  | submitUpdate (id : ℤ) (name description category : String) (priceWei : ℕ)
  | submitPurchase (id : ℤ) (value : ℕ)
  deriving DecidableEq

/-- An action that mutates ledger state (a transaction submission, as
opposed to a read-only view call). -/
def TxAction.stateChanging : TxAction → Bool
  | submitCreate _ _ _ _ _ _ _ => true
  | submitUpdate _ _ _ _ _ => true
  | submitPurchase _ _ => true
  | _ => false

/-- Every product id an action touches is positive. -/
def TxAction.idPositive : TxAction → Prop
  | viewProducts id => 0 < id
  | viewGetProduct id => 0 < id
  | viewHasPurchased id _ => 0 < id
  | submitUpdate id _ _ _ _ => 0 < id
  | submitPurchase id _ => 0 < id
  | _ => True

/-- The `TransactionResponse` of `contractConfig.ts` as the hook populates
it. -/
structure TxResponse where
  success : Bool
  transactionHash : Option String := none
  error : Option String := none
  deriving DecidableEq

/-- Arguments of `createProduct` on the hook. -/
structure CreateInput where
  name : String
  description : String
  category : String
  priceInBdag : String
  uri : String
  thumbnailUri : String
  deriving DecidableEq

/-- The dedicated catch block of `createProduct` (hook lines 967-995): two
specific classifications, then `handleContractError`. -/
def createCatch (e : ContractError) : TxResponse :=
  if e.code = some ErrCode.serverError ∨ e.code = some ErrCode.networkError
      ∨ optIncl e.message "Internal JSON-RPC" then
    { success := false, error := some networkErrMessage }
  else if e.code = some ErrCode.unpredictableGasLimit ∨ optIncl e.message "gas" then
    { success := false, error := some gasErrMessage }
  else { success := false, error := some (handleContractError e "create product") }

/-- The validation stage of the hook's `createProduct` (lines 825-843), in
source order: required-field checks, `getContract`, `parseEther`, then the
length checks; returns the wei price on success.  The pause pre-check that
follows it in the source (lines 845-856) throws inside its own `try` and is
swallowed by its own `catch`, so it never alters the result and has no
embedding. -/
def hookCreateValidate (signer : Bool) (i : CreateInput) : Except String ℕ :=
  if jsTrim i.name = "" then Except.error "Product name required"
  else if jsTrim i.description = "" then Except.error "Description required"
  else if i.priceInBdag = "" ∨ jsLeZero (jsParseFloat i.priceInBdag) then
    Except.error "Valid price required"
  else if i.uri = "" ∨ jsTrim i.uri = "" then Except.error "Product URI required"
  else if i.thumbnailUri = "" ∨ jsTrim i.thumbnailUri = "" then
    Except.error "Thumbnail URI required"
  else
    match getContractCheck signer with
    | Except.error m => Except.error m
    | Except.ok _ =>
      match parseEtherModel i.priceInBdag with
      | none => Except.error "invalid decimal value"
      | some priceWei =>
        if 100 < (jsTrim i.name).data.length then
          Except.error "Product name too long (max 100 characters)"
        else if 500 < (jsTrim i.description).data.length then
          Except.error "Description too long (max 500 characters)"
        else if 50 < (jsTrim i.category).data.length then
          Except.error "Category too long (max 50 characters)"
        else if (jsTrim i.category).data.length = 0 then
          Except.error "Category required"
        else Except.ok priceWei

/-- The transaction stage of `createProduct` (lines 893-966): submit with the
chosen gas limit, then wait; a wait failure or missing receipt still reports
success with the submission hash; a receipt with status 0 throws. -/
def createSubmitStage (ch : Chain) (i : CreateInput) (priceWei gasLimit : ℕ) :
    TxResponse × List TxAction :=
  match ch.submitCreateR with
  | CallResult.err e => (createCatch e, [])
  | CallResult.ok txHash =>
    let act := TxAction.submitCreate (jsTrim i.name) (jsTrim i.description)
      (jsTrim i.category) priceWei (jsTrim i.uri) (jsTrim i.thumbnailUri) gasLimit
    match ch.createWait with
    | WaitResult.failed _ => ({ success := true, transactionHash := some txHash }, [act])
    | WaitResult.noReceipt => ({ success := true, transactionHash := some txHash }, [act])
    | WaitResult.receipt status rh =>
      if status = 0 then
        (createCatch (plainErr "Transaction failed on blockchain"), [act])
      else ({ success := true, transactionHash := some (jsOrD rh txHash) }, [act])

/-- The gas-estimation stage of `createProduct` (lines 858-891): on failure,
a pause-flavoured message is rethrown as the pause error, a revert-flavoured
one as `Transaction would fail`, and anything else falls back to a default
gas limit of 500000. -/
def createGasStage (ch : Chain) (i : CreateInput) (priceWei : ℕ) :
    TxResponse × List TxAction :=
  match ch.gasForCreate with
  | CallResult.ok g => createSubmitStage ch i priceWei (g * 120 / 100)
  | CallResult.err ge =>
    let errorMsg := jsOrD ge.reason (jsOrD ge.message "Gas estimation failed")
    if strIncludes errorMsg "EnforcedPause" ∨ strIncludes errorMsg "paused" then
      (createCatch (plainErr pausedMessage), [])
    else if strIncludes errorMsg "revert" ∨ strIncludes errorMsg "execution reverted" then
      (createCatch (plainErr ("Transaction would fail: " ++ errorMsg)), [])
    else createSubmitStage ch i priceWei 500000

/-- Embeds the hook's `createProduct` (lines 813-1001): validation, then gas
estimation, then submission, every thrown error landing in the dedicated
catch block. -/
def hookCreateProduct (ch : Chain) (signer : Bool) (i : CreateInput) :
    TxResponse × List TxAction :=
  match hookCreateValidate signer i with
  | Except.error m => (createCatch (plainErr m), [])
  | Except.ok priceWei => createGasStage ch i priceWei

/-- Embeds the hook's `updateProduct` (lines 1003-1043): field validation,
`getContract`, `parseEther`, the product-id check, then the transaction; the
receipt status is not checked. -/
def hookUpdateProduct (ch : Chain) (signer : Bool)
    (productId name description category priceInBdag : String) :
    TxResponse × List TxAction :=
  let fail : String → TxResponse × List TxAction := fun m =>
    ({ success := false, error := some (handleContractError (plainErr m) "update product") }, [])
  if jsTrim name = "" then fail "Product name required"
  else if jsTrim description = "" then fail "Description required"
  else if priceInBdag = "" ∨ jsLeZero (jsParseFloat priceInBdag) then
    fail "Valid price required"
  else
    match getContractCheck signer with
    | Except.error m => fail m
    | Except.ok _ =>
      match parseEtherModel priceInBdag with
      | none => fail "invalid decimal value"
      | some priceWei =>
        match jsParseInt productId with
        | none => fail "Invalid product ID"
        | some id =>
          if id ≤ 0 then fail "Invalid product ID"
          else
            match ch.submitUpdateR with
            | CallResult.err e =>
              ({ success := false,
                 error := some (handleContractError e "update product") }, [])
            | CallResult.ok _ =>
              let act := TxAction.submitUpdate id (jsTrim name) (jsTrim description)
                (jsTrim category) priceWei
              match ch.updateWait with
              | WaitResult.failed e =>
                ({ success := false,
                   error := some (handleContractError e "update product") }, [act])
              | WaitResult.noReceipt =>
                ({ success := false,
                   error := some (handleContractError
                     (plainErr "TypeError: receipt is null") "update product") }, [act])
              | WaitResult.receipt _ rh =>
                ({ success := true, transactionHash := rh }, [act])

/-- Embeds the hook's `purchaseProduct` (lines 1045-1080): the product-id
check first, then `getContract`, the `products(id)` view, the exact price
comparison, and only then the payable transaction, whose receipt must have
status 1. -/
def hookPurchaseProduct (ch : Chain) (signer : Bool)
    (productId : String) (priceInWei : ℕ) : TxResponse × List TxAction :=
  let fail : String → List TxAction → TxResponse × List TxAction := fun m tr =>
    ({ success := false,
       error := some (handleContractError (plainErr m) "purchase product") }, tr)
  match jsParseInt productId with
  | none => fail "Invalid product ID" []
  | some id =>
    if id ≤ 0 then fail "Invalid product ID" []
    else
      match getContractCheck signer with
      | Except.error m => fail m []
      | Except.ok _ =>
        match ch.products id with
        | CallResult.err e =>
          ({ success := false,
             error := some (handleContractError e "purchase product") },
           [TxAction.viewProducts id])
        | CallResult.ok product =>
          if product.price ≠ priceInWei then
            fail "Price mismatch" [TxAction.viewProducts id]
          else
            match ch.submitPurchaseR with
            | CallResult.err e =>
              ({ success := false,
                 error := some (handleContractError e "purchase product") },
               [TxAction.viewProducts id])
            | CallResult.ok _ =>
              let tr := [TxAction.viewProducts id, TxAction.submitPurchase id priceInWei]
              match ch.purchaseWait with
              | WaitResult.failed e =>
                ({ success := false,
                   error := some (handleContractError e "purchase product") }, tr)
              | WaitResult.noReceipt =>
                ({ success := false,
                   error := some (handleContractError
                     (plainErr "TypeError: receipt is null") "purchase product") }, tr)
              | WaitResult.receipt status rh =>
                if status ≠ 1 then fail "Transaction failed" tr
                else ({ success := true, transactionHash := rh }, tr)

/-- The frontend `Product` record (hook lines 609-619), all fields as
strings. -/
structure FrontProduct where
  id : String
  name : String
  description : String
  category : String
  uri : String
  thumbnailUri : String
  price : String
  seller : String
  salesCount : String
  deriving DecidableEq

/-- The per-product mapping every query applies to raw chain data. -/
def convertProduct (p : OnChainProduct) : FrontProduct :=
  { id := natToString p.id, name := p.name, description := p.description
    category := p.category, uri := p.uri, thumbnailUri := p.thumbnailUri
    price := natToString p.price, seller := p.seller
    salesCount := natToString p.salesCount }

/-- The frontend `MarketplaceStats` record (hook lines 621-626). -/
structure FrontStats where
  totalProducts : String
  totalSales : String
  totalFeesCollected : String
  currentFeePercent : String
  deriving DecidableEq

/-- Embeds the hook's `getAvailableProducts` (lines 1082-1105): any thrown
error is caught and the empty list returned. -/
def hookGetAvailableProducts (ch : Chain) (signer : Bool) :
    List FrontProduct × List TxAction :=
  match getContractCheck signer with
  | Except.error _ => ([], [])
  | Except.ok _ =>
    match ch.availableView with
    | CallResult.err _ => ([], [TxAction.viewAvailable])
    | CallResult.ok l => (l.map convertProduct, [TxAction.viewAvailable])

/-- Embeds the hook's `getProduct` (lines 1107-1136): invalid ids and thrown
errors give `none`. -/
def hookGetProduct (ch : Chain) (signer : Bool) (productId : String) :
    Option FrontProduct × List TxAction :=
  match getContractCheck signer with
  | Except.error _ => (none, [])
  | Except.ok _ =>
    match jsParseInt productId with
    | none => (none, [])
    | some id =>
      if id ≤ 0 then (none, [])
      else
        match ch.getProductView id with
        | CallResult.err _ => (none, [TxAction.viewGetProduct id])
        | CallResult.ok p => (some (convertProduct p), [TxAction.viewGetProduct id])

/-- Embeds the hook's `getSellerProducts` (lines 1138-1167): an invalid
address or a thrown error gives the empty list. -/
def hookGetSellerProducts (ch : Chain) (signer : Bool) (sellerAddress : String) :
    List FrontProduct × List TxAction :=
  if ethersIsAddress sellerAddress = false then ([], [])
  else
    match getContractCheck signer with
    | Except.error _ => ([], [])
    | Except.ok _ =>
      match ch.sellerView sellerAddress with
      | CallResult.err _ => ([], [TxAction.viewSeller sellerAddress])
      | CallResult.ok l => (l.map convertProduct, [TxAction.viewSeller sellerAddress])

/-- Embeds the hook's `getProductsByCategory` (lines 1169-1198): a blank
category or a thrown error gives the empty list. -/
def hookGetProductsByCategory (ch : Chain) (signer : Bool) (category : String) :
    List FrontProduct × List TxAction :=
  if jsTrim category = "" then ([], [])
  else
    match getContractCheck signer with
    | Except.error _ => ([], [])
    | Except.ok _ =>
      match ch.categoryView (jsTrim category) with
      | CallResult.err _ => ([], [TxAction.viewCategory (jsTrim category)])
      | CallResult.ok l => (l.map convertProduct, [TxAction.viewCategory (jsTrim category)])

/-- Embeds the hook's `getMarketplaceStats` (lines 1200-1219): a thrown
error gives `none`. -/
def hookGetMarketplaceStats (ch : Chain) (signer : Bool) :
    Option FrontStats × List TxAction :=
  match getContractCheck signer with
  | Except.error _ => (none, [])
  | Except.ok _ =>
    match ch.statsView with
    | CallResult.err _ => (none, [TxAction.viewStats])
    | CallResult.ok s =>
      (some { totalProducts := natToString s.1, totalSales := natToString s.2.1
              totalFeesCollected := natToString s.2.2.1
              currentFeePercent := natToString s.2.2.2 }, [TxAction.viewStats])

/-- Embeds the hook's `hasUserPurchased` (lines 1282-1299): address check,
`getContract`, id check, then the view; every failure path returns
`false`. -/
def hookHasUserPurchased (ch : Chain) (signer : Bool)
    (productId userAddress : String) : Bool × List TxAction :=
  if ethersIsAddress userAddress = false then (false, [])
  else
    match getContractCheck signer with
    | Except.error _ => (false, [])
    | Except.ok _ =>
      match jsParseInt productId with
      | none => (false, [])
      | some id =>
        if id ≤ 0 then (false, [])
        else
          match ch.hasPurchasedView id userAddress with
          | CallResult.err _ => (false, [TxAction.viewHasPurchased id userAddress])
          | CallResult.ok b => (b, [TxAction.viewHasPurchased id userAddress])

/-! ## Digit-string lemmas -/

theorem charVal_digitChar {d : ℕ} (h : d < 10) : charVal (digitChar d) = d := by
  interval_cases d <;> decide

theorem isDigit_digitChar {d : ℕ} (h : d < 10) : (digitChar d).isDigit = true := by
  interval_cases d <;> decide

theorem digitsToNat_foldl (l : List Char) (a : ℕ) :
    l.foldl (fun a c => 10 * a + charVal c) a = a * 10 ^ l.length + digitsToNat l := by
  induction l generalizing a with
  | nil => simp [digitsToNat]
  | cons c t ih =>
    have hc : digitsToNat (c :: t) = t.foldl (fun a c => 10 * a + charVal c) (charVal c) := by
      simp [digitsToNat]
    rw [List.foldl_cons, ih, hc, ih (charVal c), List.length_cons, pow_succ]
    ring

theorem digitsToNat_append (a b : List Char) :
    digitsToNat (a ++ b) = digitsToNat a * 10 ^ b.length + digitsToNat b := by
  unfold digitsToNat
  rw [List.foldl_append]
  exact digitsToNat_foldl b (List.foldl (fun a c => 10 * a + charVal c) 0 a)

theorem digitsToNat_replicate_zero (k : ℕ) :
    digitsToNat (List.replicate k '0') = 0 := by
  induction k with
  | zero => rfl
  | succ n ih =>
    have : digitsToNat (List.replicate (n + 1) '0')
        = digitsToNat (List.replicate n '0' ++ ['0']) := by
      rw [← List.replicate_succ' n '0']
    rw [this, digitsToNat_append, ih]
    decide

theorem digitsToNat_pad (k : ℕ) (l : List Char) :
    digitsToNat (List.replicate k '0' ++ l) = digitsToNat l := by
  rw [digitsToNat_append, digitsToNat_replicate_zero]
  ring

theorem digitsToNat_natDigitsAux (f : ℕ) :
    ∀ n : ℕ, n < 10 ^ f → digitsToNat ((natDigitsAux f n).reverse) = n := by
  induction f with
  | zero =>
    intro n hn
    interval_cases n
    rfl
  | succ f ih =>
    intro n hn
    match n with
    | 0 => rfl
    | m + 1 =>
      have hd : natDigitsAux (f + 1) (m + 1)
          = digitChar ((m + 1) % 10) :: natDigitsAux f ((m + 1) / 10) := rfl
      have hq : (m + 1) / 10 < 10 ^ f := by
        rw [Nat.div_lt_iff_lt_mul (by norm_num)]
        calc m + 1 < 10 ^ (f + 1) := hn
        _ = 10 ^ f * 10 := by rw [pow_succ]
      rw [hd, List.reverse_cons, digitsToNat_append, ih _ hq]
      have hm : charVal (digitChar ((m + 1) % 10)) = (m + 1) % 10 :=
        charVal_digitChar (Nat.mod_lt _ (by norm_num))
      have h1 : digitsToNat [digitChar ((m + 1) % 10)]
          = charVal (digitChar ((m + 1) % 10)) := by
        simp [digitsToNat]
      rw [h1, hm]
      simp only [List.length_singleton, pow_one]
      omega

theorem natDigitsAux_length (f : ℕ) : ∀ n : ℕ, (natDigitsAux f n).length ≤ f := by
  induction f with
  | zero => intro n; simp [natDigitsAux]
  | succ f ih =>
    intro n
    match n with
    | 0 => simp [natDigitsAux]
    | m + 1 =>
      have : natDigitsAux (f + 1) (m + 1)
          = digitChar ((m + 1) % 10) :: natDigitsAux f ((m + 1) / 10) := rfl
      rw [this, List.length_cons]
      exact Nat.succ_le_succ (ih _)

theorem natDigitsAux_all_digit (f : ℕ) :
    ∀ n : ℕ, (natDigitsAux f n).all Char.isDigit = true := by
  induction f with
  | zero => intro n; rfl
  | succ f ih =>
    intro n
    match n with
    | 0 => rfl
    | m + 1 =>
      have : natDigitsAux (f + 1) (m + 1)
          = digitChar ((m + 1) % 10) :: natDigitsAux f ((m + 1) / 10) := rfl
      rw [this, List.all_cons, ih]
      rw [isDigit_digitChar (Nat.mod_lt _ (by norm_num))]
      rfl

theorem lt_ten_pow_succ_self (n : ℕ) : n < 10 ^ (n + 1) := by
  calc n < 2 ^ n := Nat.lt_two_pow n
  _ ≤ 10 ^ n := Nat.pow_le_pow_left (by norm_num) n
  _ < 10 ^ (n + 1) := Nat.pow_lt_pow_succ (by norm_num)

theorem digitsToNat_natToDigits (n : ℕ) : digitsToNat (natToDigits n) = n := by
  unfold natToDigits
  by_cases h : n = 0
  · subst h; decide
  · rw [if_neg h]
    exact digitsToNat_natDigitsAux (n + 1) n (lt_ten_pow_succ_self n)

theorem natToDigits_all_digit (n : ℕ) : (natToDigits n).all Char.isDigit = true := by
  unfold natToDigits
  by_cases h : n = 0
  · subst h; decide
  · rw [if_neg h, List.all_reverse]
    exact natDigitsAux_all_digit (n + 1) n

theorem natToDigits_ne_nil (n : ℕ) : natToDigits n ≠ [] := by
  intro hcon
  have := digitsToNat_natToDigits n
  rw [hcon] at this
  by_cases h : n = 0
  · subst h
    simp only [natToDigits, if_pos rfl] at hcon
    exact List.cons_ne_nil _ _ hcon
  · exact h this.symm

theorem digit_ne_dot {c : Char} (h : c.isDigit = true) : c ≠ '.' := by
  intro e
  subst e
  exact absurd h (by decide)

theorem digit_ne_minus {c : Char} (h : c.isDigit = true) : c ≠ '-' := by
  intro e
  subst e
  exact absurd h (by decide)

theorem digit_ne_plus {c : Char} (h : c.isDigit = true) : c ≠ '+' := by
  intro e
  subst e
  exact absurd h (by decide)

theorem splitDot_eq_none {l w : List Char} (h : splitDot l = (w, none)) :
    l = w ∧ ∀ c ∈ w, c ≠ '.' := by
  induction l generalizing w with
  | nil =>
    simp only [splitDot, Prod.mk.injEq] at h
    exact ⟨h.1, by rw [← h.1]; simp⟩
  | cons c t ih =>
    by_cases hc : c = '.'
    · subst hc
      simp [splitDot] at h
    · rw [show splitDot (c :: t) = (c :: (splitDot t).1, (splitDot t).2) by
        simp [splitDot, hc]] at h
      rw [Prod.mk.injEq] at h
      obtain ⟨h1, h2⟩ := h
      have hsp : splitDot t = ((splitDot t).1, none) := by rw [← h2]
      obtain ⟨ht, hw⟩ := ih hsp
      subst h1
      refine ⟨?_, ?_⟩
      · rw [← ht]
      · intro x hx
        rcases List.mem_cons.mp hx with rfl | hx'
        · exact hc
        · exact hw x hx'

theorem splitDot_eq_some {l w f : List Char} (h : splitDot l = (w, some f)) :
    l = w ++ '.' :: f ∧ ∀ c ∈ w, c ≠ '.' := by
  induction l generalizing w with
  | nil => simp [splitDot] at h
  | cons c t ih =>
    by_cases hc : c = '.'
    · subst hc
      simp only [splitDot, if_pos rfl, Prod.mk.injEq, Option.some.injEq] at h
      obtain ⟨h1, h2⟩ := h
      simp_all
    · rw [show splitDot (c :: t) = (c :: (splitDot t).1, (splitDot t).2) by
        simp [splitDot, hc]] at h
      rw [Prod.mk.injEq] at h
      obtain ⟨h1, h2⟩ := h
      have hsp : splitDot t = ((splitDot t).1, some f) := by rw [← h2]
      obtain ⟨ht, hw⟩ := ih hsp
      subst h1
      refine ⟨?_, ?_⟩
      · rw [List.cons_append, ← ht]
      · intro x hx
        rcases List.mem_cons.mp hx with rfl | hx'
        · exact hc
        · exact hw x hx'

theorem splitDot_no_dot {l : List Char} (h : ∀ c ∈ l, c ≠ '.') :
    splitDot l = (l, none) := by
  induction l with
  | nil => rfl
  | cons c t ih =>
    have hc : c ≠ '.' := h c (List.mem_cons_self c t)
    have ht := ih (fun x hx => h x (List.mem_cons_of_mem c hx))
    simp [splitDot, hc, ht]

theorem splitDot_append_dot {a b : List Char} (h : ∀ c ∈ a, c ≠ '.') :
    splitDot (a ++ '.' :: b) = (a, some b) := by
  induction a with
  | nil => simp [splitDot]
  | cons c t ih =>
    have hc : c ≠ '.' := h c (List.mem_cons_self c t)
    have ht := ih (fun x hx => h x (List.mem_cons_of_mem c hx))
    simp [splitDot, hc, ht]

theorem takeDigits_all {l : List Char} (h : l.all Char.isDigit = true) :
    takeDigits l = (l, []) := by
  induction l with
  | nil => rfl
  | cons c t ih =>
    rw [List.all_cons, Bool.and_eq_true] at h
    simp [takeDigits, h.1, ih h.2]

theorem takeDigits_append_nondigit {w : List Char} (c : Char) (t : List Char)
    (hw : w.all Char.isDigit = true) (hc : c.isDigit = false) :
    takeDigits (w ++ c :: t) = (w, c :: t) := by
  induction w with
  | nil => simp [takeDigits, hc]
  | cons d w' ih =>
    rw [List.all_cons, Bool.and_eq_true] at hw
    simp [takeDigits, hw.1, ih hw.2]

theorem trimRightZeros_append_zero (l : List Char) :
    trimRightZeros (l ++ ['0']) = trimRightZeros l := by
  unfold trimRightZeros
  rw [List.reverse_append]
  rfl

theorem trimRightZeros_append_nonzero (l : List Char) {c : Char} (hc : c ≠ '0') :
    trimRightZeros (l ++ [c]) = l ++ [c] := by
  unfold trimRightZeros
  rw [List.reverse_append]
  simp [List.dropWhile_cons, hc]

theorem fracVal_trimRightZeros (l : List Char) :
    (digitsToNat (trimRightZeros l) : ℚ) / 10 ^ (trimRightZeros l).length
      = (digitsToNat l : ℚ) / 10 ^ l.length := by
  induction l using List.reverseRecOn with
  | nil => rfl
  | append_singleton l c ih =>
    by_cases hc : c = '0'
    · subst hc
      rw [trimRightZeros_append_zero, ih, digitsToNat_append]
      have h0 : digitsToNat ['0'] = 0 := by decide
      rw [h0, List.length_append, List.length_singleton, pow_one]
      push_cast
      rw [pow_succ]
      rw [mul_comm ((10 : ℚ) ^ l.length) 10, ← div_div]
      field_simp
    · rw [trimRightZeros_append_nonzero l hc]

theorem trimRightZeros_sublist (l : List Char) :
    (trimRightZeros l).Sublist l := by
  unfold trimRightZeros
  have h := (List.dropWhile_sublist (fun c => c = '0') (l := l.reverse)).reverse
  simpa using h

theorem trimRightZeros_all_digit {l : List Char} (h : l.all Char.isDigit = true) :
    (trimRightZeros l).all Char.isDigit = true := by
  rw [List.all_eq_true] at h ⊢
  exact fun c hc => h c ((trimRightZeros_sublist l).subset hc)

theorem frac18_length (r : ℕ) : (frac18 r).length = 18 := by
  unfold frac18
  rw [List.length_append, List.length_replicate, List.length_reverse]
  have := natDigitsAux_length 18 r
  omega

theorem frac18_val {r : ℕ} (hr : r < 10 ^ 18) : digitsToNat (frac18 r) = r := by
  unfold frac18
  rw [digitsToNat_pad]
  exact digitsToNat_natDigitsAux 18 r hr

theorem frac18_all_digit (r : ℕ) : (frac18 r).all Char.isDigit = true := by
  unfold frac18
  rw [List.all_append, Bool.and_eq_true]
  refine ⟨?_, ?_⟩
  · rw [List.all_eq_true]
    intro c hc
    rw [List.eq_of_mem_replicate hc]
    decide
  · rw [List.all_reverse]
    exact natDigitsAux_all_digit 18 r

theorem no_dot_of_all_digit {l : List Char} (h : l.all Char.isDigit = true) :
    ∀ c ∈ l, c ≠ '.' := by
  rw [List.all_eq_true] at h
  exact fun c hc => digit_ne_dot (h c hc)


theorem decParts_of_split_some {s : String} {w f : List Char}
    (hs : splitDot s.data = (w, some f)) (h1 : w ≠ []) (h2 : f ≠ [])
    (h3 : w.all Char.isDigit = true) (h4 : f.all Char.isDigit = true) :
    decParts s = some (w, f) := by
  unfold decParts
  rw [hs]
  exact if_pos ⟨h1, h2, h3, h4⟩

theorem decParts_of_split_none {s : String} {w : List Char}
    (hs : splitDot s.data = (w, none)) (h1 : w ≠ [])
    (h3 : w.all Char.isDigit = true) :
    decParts s = some (w, []) := by
  unfold decParts
  rw [hs]
  exact if_pos ⟨h1, h3⟩

theorem decParts_inv {s : String} {w f : List Char}
    (h : decParts s = some (w, f)) :
    (s.data = w ++ '.' :: f ∧ f ≠ [] ∨ (s.data = w ∧ f = [])) ∧ w ≠ []
      ∧ w.all Char.isDigit = true ∧ f.all Char.isDigit = true := by
  unfold decParts at h
  rcases hsd : splitDot s.data with ⟨w', fo⟩
  rw [hsd] at h
  cases fo with
  | none =>
    replace h : (if w' ≠ [] ∧ w'.all Char.isDigit = true
        then some (w', ([] : List Char)) else none) = some (w, f) := h
    by_cases hcond : w' ≠ [] ∧ w'.all Char.isDigit = true
    · rw [if_pos hcond] at h
      rw [Option.some.injEq, Prod.mk.injEq] at h
      obtain ⟨hw, hf⟩ := h
      subst hw
      subst hf
      obtain ⟨hdata, -⟩ := splitDot_eq_none hsd
      exact ⟨Or.inr ⟨hdata, rfl⟩, hcond.1, hcond.2, by decide⟩
    · rw [if_neg hcond] at h
      exact absurd h (by simp)
  | some f' =>
    replace h : (if w' ≠ [] ∧ f' ≠ [] ∧ w'.all Char.isDigit = true
        ∧ f'.all Char.isDigit = true then some (w', f') else none) = some (w, f) := h
    by_cases hcond : w' ≠ [] ∧ f' ≠ [] ∧ w'.all Char.isDigit = true
        ∧ f'.all Char.isDigit = true
    · rw [if_pos hcond] at h
      rw [Option.some.injEq, Prod.mk.injEq] at h
      obtain ⟨hw, hf⟩ := h
      subst hw
      subst hf
      obtain ⟨hdata, -⟩ := splitDot_eq_some hsd
      exact ⟨Or.inl ⟨hdata, hcond.2.1⟩, hcond.1, hcond.2.2⟩
    · rw [if_neg hcond] at h
      exact absurd h (by simp)

theorem decValue_formatEtherModel (m : ℕ) :
    decValue (formatEtherModel m) = some ((m : ℚ) / 10 ^ 18) := by
  have hrlt : m % 10 ^ 18 < 10 ^ 18 := Nat.mod_lt _ (by norm_num)
  have hWd : (natToDigits (m / 10 ^ 18)).all Char.isDigit = true :=
    natToDigits_all_digit _
  have hWne : natToDigits (m / 10 ^ 18) ≠ [] := natToDigits_ne_nil _
  have hFd : (if trimRightZeros (frac18 (m % 10 ^ 18)) = [] then ['0']
      else trimRightZeros (frac18 (m % 10 ^ 18))).all Char.isDigit = true := by
    split
    · decide
    · exact trimRightZeros_all_digit (frac18_all_digit _)
  have hFne : (if trimRightZeros (frac18 (m % 10 ^ 18)) = [] then ['0']
      else trimRightZeros (frac18 (m % 10 ^ 18))) ≠ [] := by
    split
    · exact List.cons_ne_nil _ _
    · assumption
  have hdata : (formatEtherModel m).data
      = natToDigits (m / 10 ^ 18) ++ '.' ::
        (if trimRightZeros (frac18 (m % 10 ^ 18)) = [] then ['0']
         else trimRightZeros (frac18 (m % 10 ^ 18))) := rfl
  have hsplit : splitDot (formatEtherModel m).data
      = (natToDigits (m / 10 ^ 18),
          some (if trimRightZeros (frac18 (m % 10 ^ 18)) = [] then ['0']
            else trimRightZeros (frac18 (m % 10 ^ 18)))) := by
    rw [hdata]
    exact splitDot_append_dot (no_dot_of_all_digit hWd)
  have hparts := decParts_of_split_some hsplit hWne hFne hWd hFd
  rw [decValue, hparts, Option.map_some']
  congr 1
  rw [digitsToNat_natToDigits]
  have hfrac : (digitsToNat (if trimRightZeros (frac18 (m % 10 ^ 18)) = [] then ['0']
        else trimRightZeros (frac18 (m % 10 ^ 18))) : ℚ)
      / 10 ^ (if trimRightZeros (frac18 (m % 10 ^ 18)) = [] then ['0']
        else trimRightZeros (frac18 (m % 10 ^ 18))).length
      = ((m % 10 ^ 18 : ℕ) : ℚ) / 10 ^ 18 := by
    have hbase : (digitsToNat (trimRightZeros (frac18 (m % 10 ^ 18))) : ℚ)
        / 10 ^ (trimRightZeros (frac18 (m % 10 ^ 18))).length
        = ((m % 10 ^ 18 : ℕ) : ℚ) / 10 ^ 18 := by
      rw [fracVal_trimRightZeros, frac18_val hrlt, frac18_length]
    split
    · rename_i hnil
      rw [hnil] at hbase
      simp only [digitsToNat, List.foldl_nil, List.length_nil, pow_zero,
        Nat.cast_zero, zero_div] at hbase
      have h0 : digitsToNat ['0'] = 0 := by decide
      rw [h0, ← hbase]
      norm_num
    · exact hbase
  rw [hfrac]
  have h : ((10 : ℚ)) ^ 18 * ((m / 10 ^ 18 : ℕ) : ℚ) + ((m % 10 ^ 18 : ℕ) : ℚ)
      = (m : ℚ) := by
    exact_mod_cast congrArg (fun n : ℕ => (n : ℚ)) (Nat.div_add_mod m (10 ^ 18))
  rw [← h, add_div, mul_comm ((10 : ℚ) ^ 18) _,
    mul_div_cancel_right₀ _ (by norm_num : ((10 : ℚ)) ^ 18 ≠ 0)]

theorem jsParseFloat_decParts {s : String} {w f : List Char}
    (h : decParts s = some (w, f)) :
    jsParseFloat s = some ((digitsToNat w : ℚ) + (digitsToNat f : ℚ) / 10 ^ f.length) := by
  obtain ⟨hshape, hwne, hwd, hfd⟩ := decParts_inv h
  obtain ⟨c, w', rfl⟩ : ∃ c w', w = c :: w' := by
    cases w with
    | nil => exact absurd rfl hwne
    | cons c w' => exact ⟨c, w', rfl⟩
  have hcd : c.isDigit = true := by
    rw [List.all_cons, Bool.and_eq_true] at hwd
    exact hwd.1
  have hwd' : w'.all Char.isDigit = true := by
    rw [List.all_cons, Bool.and_eq_true] at hwd
    exact hwd.2
  have hnm : ¬(s.data.head? = some '-') := by
    rcases hshape with ⟨hdata, -⟩ | ⟨hdata, -⟩ <;>
      · rw [hdata]
        simp only [List.cons_append, List.head?_cons, Option.some.injEq]
        exact digit_ne_minus hcd
  have hnp : ¬(s.data.head? = some '+') := by
    rcases hshape with ⟨hdata, -⟩ | ⟨hdata, -⟩ <;>
      · rw [hdata]
        simp only [List.cons_append, List.head?_cons, Option.some.injEq]
        exact digit_ne_plus hcd
  rw [jsParseFloat, if_neg hnm, if_neg hnp]
  rcases hshape with ⟨hdata, -⟩ | ⟨hdata, rfl⟩
  · rw [hdata]
    have htd : takeDigits ((c :: w') ++ '.' :: f) = (c :: w', '.' :: f) :=
      takeDigits_append_nondigit '.' f hwd (by decide)
    rw [jsParseFloatCore, htd]
    simp only
    rw [takeDigits_all hfd]
    simp only
    rw [if_neg (by simp)]
  · rw [hdata]
    have htd : takeDigits (c :: w') = (c :: w', []) := takeDigits_all hwd
    rw [jsParseFloatCore, htd]
    simp only
    rw [if_neg (by simp)]

theorem decParts_ne_empty {s : String} {w f : List Char}
    (h : decParts s = some (w, f)) : s ≠ "" := by
  obtain ⟨hshape, hwne, -, -⟩ := decParts_inv h
  intro hempty
  subst hempty
  rcases hshape with ⟨hdata, -⟩ | ⟨hdata, -⟩ <;>
    · cases w with
      | nil => exact hwne rfl
      | cons c w' => exact absurd hdata.symm (by simp [show ("" : String).data = [] from rfl])

theorem decParts_natToString (m : ℕ) :
    decParts (natToString m) = some (natToDigits m, []) := by
  have hd : (natToString m).data = natToDigits m := rfl
  have hs : splitDot (natToString m).data = (natToDigits m, none) := by
    rw [hd]
    exact splitDot_no_dot (no_dot_of_all_digit (natToDigits_all_digit m))
  exact decParts_of_split_none hs (natToDigits_ne_nil m) (natToDigits_all_digit m)

theorem jsNumeric_natToString (m : ℕ) : jsNumeric (natToString m) = true := by
  rw [jsNumeric, jsParseFloat_decParts (decParts_natToString m)]
  rfl

/-- The wei amount `parseEther` produces for the decimal string with whole
digits `w` and fraction digits `f`. -/
def etherWei (w f : List Char) : ℕ :=
  digitsToNat w * 10 ^ 18 + digitsToNat f * 10 ^ (18 - f.length)

theorem parseEtherModel_eq {s : String} {w f : List Char}
    (h : decParts s = some (w, f)) (hd : f.length ≤ 18) :
    parseEtherModel s = some (etherWei w f) := by
  have hm : parseEtherModel s = (if f.length ≤ 18
      then some (digitsToNat w * 10 ^ 18 + digitsToNat f * 10 ^ (18 - f.length))
      else none) := by
    rw [parseEtherModel, h]
  rw [hm, if_pos hd]
  rfl

theorem bdagToWei_ok {s : String} {w f : List Char}
    (h : decParts s = some (w, f)) (hd : f.length ≤ 18) :
    bdagToWei s = Except.ok (natToString (etherWei w f)) := by
  have hnum : jsNumeric s = true := by
    rw [jsNumeric, jsParseFloat_decParts h]
    rfl
  rw [bdagToWei, if_neg (by
    rintro (he | hf)
    · exact decParts_ne_empty h he
    · rw [hnum] at hf
      exact Bool.noConfusion hf)]
  rw [parseEtherModel_eq h hd]

theorem weiToBdag_natToString (m : ℕ) :
    weiToBdag (natToString m) = formatEtherModel m := by
  have hnum : jsNumeric (natToString m) = true := jsNumeric_natToString m
  rw [weiToBdag, if_neg (by
    rintro (he | hf)
    · exact decParts_ne_empty (decParts_natToString m) he
    · rw [hnum] at hf
      exact Bool.noConfusion hf)]
  rw [if_pos ⟨by
      show natToDigits m ≠ []
      exact natToDigits_ne_nil m,
    by
      show (natToDigits m).all Char.isDigit = true
      exact natToDigits_all_digit m⟩]
  rw [show (natToString m).data = natToDigits m from rfl, digitsToNat_natToDigits]

theorem etherWei_value {f : List Char} (w : List Char) (hd : f.length ≤ 18) :
    ((etherWei w f : ℕ) : ℚ) / 10 ^ 18
      = (digitsToNat w : ℚ) + (digitsToNat f : ℚ) / 10 ^ f.length := by
  have hcast : ((etherWei w f : ℕ) : ℚ)
      = (digitsToNat w : ℚ) * 10 ^ 18 + (digitsToNat f : ℚ) * 10 ^ (18 - f.length) := by
    rw [etherWei, Nat.cast_add, Nat.cast_mul, Nat.cast_mul, Nat.cast_pow, Nat.cast_pow]
    norm_num
  have hpow : ((10 : ℚ)) ^ 18 = 10 ^ f.length * 10 ^ (18 - f.length) := by
    rw [← pow_add, Nat.add_sub_cancel' hd]
  have h1 : (digitsToNat w : ℚ) * 10 ^ 18 / 10 ^ 18 = (digitsToNat w : ℚ) :=
    mul_div_cancel_right₀ _ (by positivity)
  have h2 : (digitsToNat f : ℚ) * 10 ^ (18 - f.length) / 10 ^ 18
      = (digitsToNat f : ℚ) / 10 ^ f.length := by
    rw [hpow, mul_comm ((10 : ℚ) ^ f.length) _, ← div_div,
      mul_div_cancel_right₀ _ (by positivity : ((10 : ℚ)) ^ (18 - f.length) ≠ 0)]
  rw [hcast, add_div, h1, h2]

/-! ## Claim theorems -/

/-- **C9.**  The currency helpers round-trip: for every plain decimal string
denoting a positive amount with at most 18 fraction digits (whole digits `w`,
fraction digits `f`), `bdagToWei` succeeds and
`weiToBdag (bdagToWei x)` denotes the same numeric value as `x`; moreover
`bdagToWei` raises its error on non-numeric input while `weiToBdag` is total
and returns `"0"` there. -/
theorem c9_currency_helpers_roundtrip :
    (∀ (s : String) (w f : List Char), decParts s = some (w, f) → f.length ≤ 18 →
      0 < (digitsToNat w : ℚ) + (digitsToNat f : ℚ) / 10 ^ f.length →
      bdagToWei s = Except.ok (natToString (etherWei w f))
        ∧ decValue (weiToBdag (natToString (etherWei w f))) = decValue s)
    ∧ (∀ s : String, jsNumeric s = false →
        bdagToWei s = Except.error "Failed to convert BDAG to Wei")
    ∧ (∀ s : String, jsNumeric s = false → weiToBdag s = "0") := by
  refine ⟨?_, ?_, ?_⟩
  · intro s w f h hd hpos
    refine ⟨bdagToWei_ok h hd, ?_⟩
    rw [weiToBdag_natToString, decValue_formatEtherModel, etherWei_value w hd,
      decValue, h, Option.map_some']
  · intro s h
    rw [bdagToWei, if_pos (Or.inr h)]
  · intro s h
    rw [weiToBdag, if_pos (Or.inr h)]

/-- Witness for **C9** at the concrete input `"1.5"` (and, for the failure
clauses, at `"abc"`). -/
theorem c9_currency_helpers_roundtrip_witness :
    (bdagToWei "1.5" = Except.ok (natToString (etherWei ['1'] ['5']))
      ∧ decValue (weiToBdag (natToString (etherWei ['1'] ['5']))) = decValue "1.5")
    ∧ bdagToWei "abc" = Except.error "Failed to convert BDAG to Wei"
    ∧ weiToBdag "abc" = "0" :=
  ⟨c9_currency_helpers_roundtrip.1 "1.5" ['1'] ['5'] (by decide) (by decide)
    (by
      have h1 : digitsToNat ['1'] = 1 := by decide
      have h5 : digitsToNat ['5'] = 5 := by decide
      rw [h1, h5]
      norm_num),
   c9_currency_helpers_roundtrip.2.1 "abc" (by decide),
   c9_currency_helpers_roundtrip.2.2 "abc" (by decide)⟩

/-- **C2**, counterexample.  At the form price `p = 0.00208` BDAG the fee the
listing preview displays is `0.0001` (the result of `toFixed(4)` rounding to
nearest), not the truncating integer division `⌊p·250/10000⌋ = 0` the claim
states, and the displayed fee and seller proceeds sum to `0.0021 ≠ p`. -/
theorem c2_fee_display_counterexample :
    marketplaceFeeDisplay (13 / 6250) ≠ ((⌊(13 / 6250 : ℚ) * 250 / 10000⌋ : ℤ) : ℚ)
      ∧ marketplaceFeeDisplay (13 / 6250) + sellerReceivesDisplay (13 / 6250)
        ≠ (13 / 6250 : ℚ) := by
  have h1 : marketplaceFeeDisplay (13 / 6250) = 1 / 10000 := by
    rw [marketplaceFeeDisplay, round4]
    norm_num [round_eq]
  have h2 : sellerReceivesDisplay (13 / 6250) = 20 / 10000 := by
    rw [sellerReceivesDisplay, round4]
    norm_num [round_eq]
  have h3 : (⌊(13 / 6250 : ℚ) * 250 / 10000⌋ : ℤ) = 0 := by norm_num
  rw [h1, h2, h3]
  norm_num

/-- **C2**, amended.  The displayed fee is `p·250/10000` computed exactly and
rounded (to nearest) at 4 decimal places, the displayed proceeds are
`p·9750/10000` rounded the same way, and their sum equals `p` only up to the
rounding error, which is at most `10⁻⁴`. -/
theorem c2_fee_display_amended (p : ℚ) :
    marketplaceFeeDisplay p = round4 (p * 250 / 10000)
      ∧ sellerReceivesDisplay p = round4 (p * 9750 / 10000)
      ∧ |marketplaceFeeDisplay p + sellerReceivesDisplay p - p| ≤ 1 / 10000 := by
  refine ⟨by rw [marketplaceFeeDisplay]; congr 1; ring,
    by rw [sellerReceivesDisplay]; congr 1; ring, ?_⟩
  have key : marketplaceFeeDisplay p + sellerReceivesDisplay p - p
      = ((((round (p * (25 / 1000) * 10000) : ℤ) : ℚ) - p * (25 / 1000) * 10000)
        + (((round (p * (975 / 1000) * 10000) : ℤ) : ℚ) - p * (975 / 1000) * 10000))
          / 10000 := by
    rw [marketplaceFeeDisplay, sellerReceivesDisplay, round4, round4]
    ring
  have ha := abs_sub_round (p * (25 / 1000) * 10000)
  have hb := abs_sub_round (p * (975 / 1000) * 10000)
  rw [abs_sub_comm] at ha hb
  have htri := abs_add
    ((((round (p * (25 / 1000) * 10000) : ℤ) : ℚ)) - p * (25 / 1000) * 10000)
    ((((round (p * (975 / 1000) * 10000) : ℤ) : ℚ)) - p * (975 / 1000) * 10000)
  have habs : |(((round (p * (25 / 1000) * 10000) : ℤ) : ℚ) - p * (25 / 1000) * 10000)
      + (((round (p * (975 / 1000) * 10000) : ℤ) : ℚ) - p * (975 / 1000) * 10000)| ≤ 1 := by
    linarith
  rw [key, abs_div, show |(10000 : ℚ)| = 10000 by norm_num]
  gcongr

theorem jsTrim_empty : jsTrim "" = "" := rfl

theorem jsLeZero_some_iff (q : ℚ) : jsLeZero (some q) = true ↔ q ≤ 0 := by
  rw [jsLeZero]
  exact decide_eq_true_iff

theorem jsGtCap_some_iff (q : ℚ) : jsGtCap (some q) = true ↔ 5000 < q := by
  rw [jsGtCap]
  exact decide_eq_true_iff

theorem contractAddress_valid : ethersIsAddress CONTRACT_ADDRESS = true := by decide

theorem getContractCheck_true : getContractCheck true = Except.ok () := rfl

/-- On a plain all-digit string (no dot), `parseFloat` returns the digit
value. -/
theorem jsParseFloat_int_string {s : String} {w : List Char}
    (h : decParts s = some (w, [])) :
    jsParseFloat s = some ((digitsToNat w : ℕ) : ℚ) := by
  rw [jsParseFloat_decParts h]
  norm_num [show digitsToNat [] = 0 from rfl]

theorem blank_or_iff (s : String) : (s = "" ∨ jsTrim s = "") ↔ jsTrim s = "" :=
  ⟨fun h => h.elim (fun he => he ▸ jsTrim_empty) id, Or.inr⟩

theorem string_length_eq_zero_iff (s : String) : s.length = 0 ↔ s = "" := by
  constructor
  · intro h
    cases s with
    | mk l =>
      cases l with
      | nil => rfl
      | cons c t => simp at h
  · intro h
    rw [h]
    rfl

/-- **C4**, counterexample.  A creation request that satisfies every string
constraint listed by the claim (the claim does not require a non-empty
description) is nevertheless rejected by the hook's validation stage with
`Description required`, so the claimed set of rejected requests is not
exact. -/
theorem c4_create_validation_counterexample :
    hookCreateValidate true
        { name := "a", description := "", category := "Art",
          priceInBdag := "1", uri := "u", thumbnailUri := "t" }
      = Except.error "Description required"
    ∧ ("a" ≠ "" ∧ ("a" : String).data.length ≤ 100
      ∧ ("" : String).data.length ≤ 500
      ∧ "Art" ≠ "" ∧ ("Art" : String).data.length ≤ 50
      ∧ "u" ≠ "" ∧ "t" ≠ "") :=
  ⟨rfl, by decide⟩

/-- **C4**, amended.  Given a well-formed positive price and a connected
signer, the hook's `createProduct` validation stage passes exactly those
requests whose trimmed name is non-empty and at most 100 characters, whose
trimmed description is non-empty (a requirement the source adds beyond the
claim) and at most 500 characters, whose trimmed category is non-empty and
at most 50 characters, and whose uri and thumbnail uri are non-blank. -/
theorem c4_create_validation_amended (i : CreateInput) (q : ℚ) (pw : ℕ)
    (hq : jsParseFloat i.priceInBdag = some q) (hq0 : ¬ q ≤ 0)
    (hne : i.priceInBdag ≠ "") (hpe : parseEtherModel i.priceInBdag = some pw) :
    (∃ w, hookCreateValidate true i = Except.ok w)
      ↔ (jsTrim i.name ≠ "" ∧ (jsTrim i.name).data.length ≤ 100
        ∧ jsTrim i.description ≠ "" ∧ (jsTrim i.description).data.length ≤ 500
        ∧ jsTrim i.category ≠ "" ∧ (jsTrim i.category).data.length ≤ 50
        ∧ jsTrim i.uri ≠ "" ∧ jsTrim i.thumbnailUri ≠ "") := by
  have hprice : ¬(i.priceInBdag = "" ∨ jsLeZero (jsParseFloat i.priceInBdag) = true) := by
    rw [hq]
    rintro (h | h)
    · exact hne h
    · exact hq0 ((jsLeZero_some_iff q).mp h)
  rw [hookCreateValidate, if_neg hprice, getContractCheck_true, hpe]
  simp only [blank_or_iff]
  split_ifs <;> simp_all [jsTrim_empty, string_length_eq_zero_iff]

theorem jsLeZero_parseFloat_digits {s : String} {w : List Char}
    (h : decParts s = some (w, [])) (h0 : digitsToNat w ≠ 0) :
    jsLeZero (jsParseFloat s) = false := by
  rw [jsParseFloat_int_string h, jsLeZero, decide_eq_false_iff_not, not_le]
  exact_mod_cast Nat.pos_of_ne_zero h0

/-- The validation stage of the hook's `createProduct` succeeds whenever
every check passes. -/
theorem hookCreateValidate_pass (i : CreateInput) (pw : ℕ)
    (h1 : jsTrim i.name ≠ "") (h2 : jsTrim i.description ≠ "")
    (h3 : jsLeZero (jsParseFloat i.priceInBdag) = false) (h4 : i.priceInBdag ≠ "")
    (h5 : jsTrim i.uri ≠ "") (h6 : jsTrim i.thumbnailUri ≠ "")
    (h7 : parseEtherModel i.priceInBdag = some pw)
    (h8 : (jsTrim i.name).data.length ≤ 100)
    (h9 : (jsTrim i.description).data.length ≤ 500)
    (h10 : (jsTrim i.category).data.length ≤ 50)
    (h11 : (jsTrim i.category).data.length ≠ 0) :
    hookCreateValidate true i = Except.ok pw := by
  rw [hookCreateValidate, if_neg h1, if_neg h2,
    if_neg (by
      rintro (h | h)
      · exact h4 h
      · rw [h3] at h
        exact Bool.noConfusion h),
    if_neg (by
      rintro (h | h)
      · exact h5 (h ▸ jsTrim_empty)
      · exact h5 h),
    if_neg (by
      rintro (h | h)
      · exact h6 (h ▸ jsTrim_empty)
      · exact h6 h),
    getContractCheck_true, h7]
  show (if 100 < (jsTrim i.name).data.length
      then (Except.error "Product name too long (max 100 characters)" : Except String ℕ)
    else if 500 < (jsTrim i.description).data.length
      then Except.error "Description too long (max 500 characters)"
    else if 50 < (jsTrim i.category).data.length
      then Except.error "Category too long (max 50 characters)"
    else if (jsTrim i.category).data.length = 0 then Except.error "Category required"
    else Except.ok pw) = Except.ok pw
  rw [if_neg (by omega), if_neg (by omega), if_neg (by omega), if_neg h11]

/-- A benign chain environment: not paused, every call succeeding. -/
def okChain : Chain :=
  { paused := false
    products := fun _ => CallResult.ok { price := 1000 }
    createGas := CallResult.ok 100000
    createSubmit := CallResult.ok "0xcreate"
    createWait := WaitResult.receipt 1 (some "0xcreate")
    updateSubmit := CallResult.ok "0xupdate"
    updateWait := WaitResult.receipt 1 (some "0xupdate")
    purchaseSubmit := CallResult.ok "0xbuy"
    purchaseWait := WaitResult.receipt 1 (some "0xbuy")
    getProductView := fun _ => CallResult.ok {}
    availableView := CallResult.ok []
    sellerView := fun _ => CallResult.ok []
    categoryView := fun _ => CallResult.ok []
    statsView := CallResult.ok (0, 0, 0, 0)
    hasPurchasedView := fun _ _ => CallResult.ok true }

/-- **C4**, witness: a fully well-formed request passes the amended
validation characterization. -/
theorem c4_create_validation_amended_witness :
    ∃ w, hookCreateValidate true
      { name := "n", description := "d", category := "Art",
        priceInBdag := "1", uri := "u", thumbnailUri := "t" } = Except.ok w :=
  (c4_create_validation_amended
      { name := "n", description := "d", category := "Art",
        priceInBdag := "1", uri := "u", thumbnailUri := "t" }
      ((digitsToNat ['1'] : ℕ) : ℚ) (etherWei ['1'] [])
      (jsParseFloat_int_string (by decide))
      (by
        rw [show digitsToNat ['1'] = 1 from by decide]
        norm_num)
      (by decide)
      (parseEtherModel_eq (by decide) (by decide))).mpr (by decide)

/-- **C5**, counterexample.  The hook's `createProduct` has no price-cap
check: the request with price `6000` BDAG (above the 5000 cap) passes its
validation stage and a transaction is submitted on a benign chain, even
though the listing form rejects the same price; so the cap is not enforced
at every entry point of the creation path. -/
theorem c5_price_cap_counterexample :
    hookCreateValidate true
        { name := "a", description := "d", category := "Art",
          priceInBdag := "6000", uri := "u", thumbnailUri := "t" }
      = Except.ok (etherWei ['6', '0', '0', '0'] [])
    ∧ jsParseFloat "6000" = some ((digitsToNat ['6', '0', '0', '0'] : ℕ) : ℚ)
    ∧ (5000 : ℚ) < ((digitsToNat ['6', '0', '0', '0'] : ℕ) : ℚ)
    ∧ (hookCreateProduct okChain true
        { name := "a", description := "d", category := "Art",
          priceInBdag := "6000", uri := "u", thumbnailUri := "t" }).2 ≠ []
    ∧ handleSubmitValidate true "a" "d" "6000" true
      = Except.error "Product price too high (max 5000 BDAG)" := by
  have hle : jsLeZero (jsParseFloat "6000") = false :=
    @jsLeZero_parseFloat_digits "6000" ['6', '0', '0', '0'] (by decide) (by decide)
  have hpe : parseEtherModel "6000" = some (etherWei ['6', '0', '0', '0'] []) :=
    @parseEtherModel_eq "6000" ['6', '0', '0', '0'] [] (by decide) (by decide)
  have hpf : jsParseFloat "6000" = some ((digitsToNat ['6', '0', '0', '0'] : ℕ) : ℚ) :=
    @jsParseFloat_int_string "6000" ['6', '0', '0', '0'] (by decide)
  have hval : hookCreateValidate true
      { name := "a", description := "d", category := "Art",
        priceInBdag := "6000", uri := "u", thumbnailUri := "t" }
      = Except.ok (etherWei ['6', '0', '0', '0'] []) :=
    hookCreateValidate_pass _ _ (by decide) (by decide) hle (by decide)
      (by decide) (by decide) hpe (by decide) (by decide) (by decide) (by decide)
  have hcap : jsGtCap (jsParseFloat "6000") = true := by
    rw [hpf]
    exact (jsGtCap_some_iff _).mpr (by
      rw [show digitsToNat ['6', '0', '0', '0'] = 6000 from by decide]
      norm_num)
  refine ⟨hval, hpf, ?_, ?_, ?_⟩
  · rw [show digitsToNat ['6', '0', '0', '0'] = 6000 from by decide]
    norm_num
  · rw [hookCreateProduct, hval]
    decide
  · rw [handleSubmitValidate, if_neg (by decide), if_neg (by decide),
      if_neg (by decide), if_neg (by decide),
      if_neg (by
        rw [hle]
        simp),
      if_pos hcap]

/-- **C5**, amended.  The listing form validates `0 < price ≤ 5000` BDAG
(rejecting every parsed price outside that range), while the hook's
`createProduct` validates only `0 < price` and leaves the upper cap to the
contract: its validation stage rejects every non-positive parsed price, but
(per the counterexample) not prices above the cap. -/
theorem c5_price_validation_amended (price : String) (q : ℚ)
    (hq : jsParseFloat price = some q) :
    (∀ (name description : String) (mainFile : Bool) (u : Unit), q ≤ 0 ∨ 5000 < q →
        handleSubmitValidate true name description price mainFile ≠ Except.ok u)
    ∧ (∀ (i : CreateInput) (w : ℕ), i.priceInBdag = price → q ≤ 0 →
        hookCreateValidate true i ≠ Except.ok w) := by
  constructor
  · intro name description mainFile u hbad hok
    rw [handleSubmitValidate] at hok
    split_ifs at hok <;> simp_all [jsLeZero_some_iff, jsGtCap_some_iff]
    obtain ⟨-, hq1⟩ := ‹¬price = "" ∧ 0 < q›
    rcases hbad with hb | hb
    · linarith
    · linarith [‹q ≤ 5000›]
  · intro i w hip hq0 hok
    rw [hookCreateValidate] at hok
    split_ifs at hok <;> simp_all [jsLeZero_some_iff, jsGtCap_some_iff]

/-- **C5**, witness: at the parsed price `0` both the form and the hook
reject. -/
theorem c5_price_validation_amended_witness :
    handleSubmitValidate true "a" "d" "0" true ≠ Except.ok ()
    ∧ hookCreateValidate true
      { name := "a", description := "d", category := "Art",
        priceInBdag := "0", uri := "u", thumbnailUri := "t" } ≠ Except.ok 0 :=
  have hq0 : ((digitsToNat ['0'] : ℕ) : ℚ) ≤ 0 := by
    rw [show digitsToNat ['0'] = 0 from by decide]
    norm_num
  have h := c5_price_validation_amended "0" ((digitsToNat ['0'] : ℕ) : ℚ)
    (@jsParseFloat_int_string "0" ['0'] (by decide))
  ⟨h.1 "a" "d" true () (Or.inl hq0), h.2 _ 0 rfl hq0⟩

/-- `handleContractError` hands a plain `Error` message through unchanged
when none of its classification substrings occur in it. -/
theorem handleContractError_plain (m op : String)
    (h1 : strIncludes m "Internal JSON-RPC" = false)
    (h2 : strIncludes m "JSON-RPC" = false)
    (h3 : strIncludes m "gas" = false)
    (h4 : strIncludes m "Gas" = false)
    (h5 : m ≠ "") :
    handleContractError (plainErr m) op = m := by
  simp [handleContractError, handleContractError.fallbackTail, plainErr, optIncl,
    innerCode, innerMessage, innerData, innerInnerMessage, jsOrD, h1, h2, h3, h4, h5]

/-- **C1.**  On a purchase request with a valid product id, if the attached
amount differs from the stored `product.price` the hook returns the
`Price mismatch` failure having performed only the read-only `products(id)`
view — no transaction is submitted and no ledger state is touched; and in
general a purchase transaction is submitted only when the attached amount
equals the stored price exactly. -/
theorem c1_purchase_price_mismatch :
    (∀ (ch : Chain) (pid : String) (id : ℤ) (v : ℕ) (p : OnChainProduct),
      jsParseInt pid = some id → ¬ id ≤ 0 → ch.products id = CallResult.ok p →
      p.price ≠ v →
      hookPurchaseProduct ch true pid v
        = ({ success := false, error := some "Price mismatch" },
           [TxAction.viewProducts id]))
    ∧ (∀ (ch : Chain) (signer : Bool) (pid : String) (v : ℕ) (id' : ℤ) (v' : ℕ),
        TxAction.submitPurchase id' v' ∈ (hookPurchaseProduct ch signer pid v).2 →
        v' = v ∧ ∃ p, ch.products id' = CallResult.ok p ∧ p.price = v) := by
  constructor
  · intro ch pid id v p hpid hpos hp hne
    rw [hookPurchaseProduct, hpid]
    simp only
    rw [if_neg hpos, getContractCheck_true]
    simp only
    rw [hp]
    simp only
    rw [if_pos hne]
    rw [handleContractError_plain "Price mismatch" "purchase product"
      (by decide) (by decide) (by decide) (by decide) (by decide)]
  · intro ch signer pid v id' v' hmem
    rw [hookPurchaseProduct] at hmem
    cases hj : jsParseInt pid with
    | none =>
      rw [hj] at hmem
      simp at hmem
    | some id =>
      rw [hj] at hmem
      simp only at hmem
      by_cases hid : id ≤ 0
      · rw [if_pos hid] at hmem
        simp at hmem
      · rw [if_neg hid] at hmem
        cases hgc : getContractCheck signer with
        | error m =>
          rw [hgc] at hmem
          simp at hmem
        | ok u =>
          rw [hgc] at hmem
          simp only at hmem
          cases hp : ch.products id with
          | err e =>
            rw [hp] at hmem
            simp at hmem
          | ok p =>
            rw [hp] at hmem
            simp only at hmem
            by_cases hpe : p.price ≠ v
            · rw [if_pos hpe] at hmem
              simp at hmem
            · rw [if_neg hpe] at hmem
              push_neg at hpe
              cases hs : ch.submitPurchaseR with
              | err e =>
                rw [hs] at hmem
                simp at hmem
              | ok h =>
                rw [hs] at hmem
                simp only at hmem
                cases hw : ch.purchaseWait with
                | failed e =>
                  rw [hw] at hmem
                  simp at hmem
                  obtain ⟨h1, h2⟩ := hmem
                  subst h1
                  subst h2
                  exact ⟨rfl, p, hp, hpe⟩
                | noReceipt =>
                  rw [hw] at hmem
                  simp at hmem
                  obtain ⟨h1, h2⟩ := hmem
                  subst h1
                  subst h2
                  exact ⟨rfl, p, hp, hpe⟩
                | receipt status rh =>
                  rw [hw] at hmem
                  simp only at hmem
                  by_cases hst : status ≠ 1
                  · rw [if_pos hst] at hmem
                    simp at hmem
                    obtain ⟨h1, h2⟩ := hmem
                    subst h1
                    subst h2
                    exact ⟨rfl, p, hp, hpe⟩
                  · rw [if_neg hst] at hmem
                    simp at hmem
                    obtain ⟨h1, h2⟩ := hmem
                    subst h1
                    subst h2
                    exact ⟨rfl, p, hp, hpe⟩

/-- **C1**, witness: a request attaching 999 wei against a stored price of
1000 wei is rejected with `Price mismatch` after the single read-only view. -/
theorem c1_purchase_price_mismatch_witness :
    hookPurchaseProduct okChain true "1" 999
      = ({ success := false, error := some "Price mismatch" },
         [TxAction.viewProducts 1]) :=
  c1_purchase_price_mismatch.1 okChain "1" 1 999 { price := 1000 }
    (by decide) (by decide) rfl (by decide)

/-- **C8.**  A product-id argument that does not parse to a positive integer
(`NaN` or `≤ 0`) makes `purchaseProduct` and `updateProduct` (the latter once
its earlier field validations pass) fail with `Invalid product ID` and makes
`getProduct` return `null`, all with an empty interaction trace — and in
general every id occurring in an interaction these three operations perform
is positive. -/
theorem c8_invalid_product_id :
    (∀ (ch : Chain) (pid : String) (v : ℕ)
      (name description category priceInBdag : String),
      (jsParseInt pid = none ∨ ∃ id, jsParseInt pid = some id ∧ id ≤ 0) →
      hookPurchaseProduct ch true pid v
        = ({ success := false, error := some "Invalid product ID" }, [])
      ∧ (jsTrim name ≠ "" → jsTrim description ≠ "" →
          ¬(priceInBdag = "" ∨ jsLeZero (jsParseFloat priceInBdag) = true) →
          (∃ pw, parseEtherModel priceInBdag = some pw) →
          hookUpdateProduct ch true pid name description category priceInBdag
            = ({ success := false, error := some "Invalid product ID" }, []))
      ∧ hookGetProduct ch true pid = (none, []))
    ∧ (∀ (ch : Chain) (signer : Bool) (pid : String) (v : ℕ),
        ∀ a ∈ (hookPurchaseProduct ch signer pid v).2, a.idPositive)
    ∧ (∀ (ch : Chain) (signer : Bool)
        (pid name description category priceInBdag : String),
        ∀ a ∈ (hookUpdateProduct ch signer pid name description
          category priceInBdag).2, a.idPositive)
    ∧ (∀ (ch : Chain) (signer : Bool) (pid : String),
        ∀ a ∈ (hookGetProduct ch signer pid).2, a.idPositive) := by
  have hplain : ∀ op : String, op = "purchase product" ∨ op = "update product" →
      handleContractError (plainErr "Invalid product ID") op = "Invalid product ID" := by
    rintro op (rfl | rfl) <;>
      exact handleContractError_plain _ _ (by decide) (by decide) (by decide)
        (by decide) (by decide)
  refine ⟨?_, ?_, ?_, ?_⟩
  · intro ch pid v name description category priceInBdag hbad
    refine ⟨?_, ?_, ?_⟩
    · rw [hookPurchaseProduct]
      rcases hbad with hj | ⟨id, hj, hle⟩
      · rw [hj]
        simp only
        rw [hplain _ (Or.inl rfl)]
      · rw [hj]
        simp only
        rw [if_pos hle, hplain _ (Or.inl rfl)]
    · intro h1 h2 h3 h4
      obtain ⟨pw, hpw⟩ := h4
      rw [hookUpdateProduct, if_neg h1, if_neg h2, if_neg h3,
        getContractCheck_true]
      simp only
      rw [hpw]
      simp only
      rcases hbad with hj | ⟨id, hj, hle⟩
      · rw [hj]
        simp only
        rw [hplain _ (Or.inr rfl)]
      · rw [hj]
        simp only
        rw [if_pos hle, hplain _ (Or.inr rfl)]
    · rw [hookGetProduct, getContractCheck_true]
      simp only
      rcases hbad with hj | ⟨id, hj, hle⟩
      · rw [hj]
      · rw [hj]
        simp only
        rw [if_pos hle]
  · intro ch signer pid v a ha
    rw [hookPurchaseProduct] at ha
    repeat' split at ha
    all_goals simp only [List.mem_cons, List.mem_singleton, List.not_mem_nil,
      or_false] at ha
    all_goals
      first
      | exact ha.elim
      | (rcases ha with rfl | rfl <;> simp [TxAction.idPositive] <;> omega)
      | (rcases ha with rfl <;> simp [TxAction.idPositive] <;> omega)
  · intro ch signer pid name description category priceInBdag a ha
    rw [hookUpdateProduct] at ha
    repeat' split at ha
    all_goals simp only [List.mem_cons, List.mem_singleton, List.not_mem_nil,
      or_false] at ha
    all_goals
      first
      | exact ha.elim
      | (rcases ha with rfl | rfl <;> simp [TxAction.idPositive] <;> omega)
      | (rcases ha with rfl <;> simp [TxAction.idPositive] <;> omega)
  · intro ch signer pid a ha
    rw [hookGetProduct] at ha
    repeat' split at ha
    all_goals simp only [List.mem_cons, List.mem_singleton, List.not_mem_nil,
      or_false] at ha
    all_goals
      first
      | exact ha.elim
      | (rcases ha with rfl | rfl <;> simp [TxAction.idPositive] <;> omega)
      | (rcases ha with rfl <;> simp [TxAction.idPositive] <;> omega)

theorem handleContractError_enforcedPause (op : String) :
    handleContractError enforcedPauseError op = pausedMessage := rfl

/-- **C3.**  While the chain reports `paused = true`, `createProduct` (given
inputs that pass its local validation), `updateProduct` (likewise) and
`purchaseProduct` (with a valid id and matching price) each fail with the
dedicated pause message and submit no state-changing transaction — the only
interaction is purchase's read-only view — and the frontend's own
`handlePauseError` classifier recognizes that message as the pause kind but
not the validation or mismatch messages. -/
theorem c3_pause_gate (ch : Chain) (hp : ch.paused = true) :
    (∀ (i : CreateInput) (pw : ℕ), hookCreateValidate true i = Except.ok pw →
      hookCreateProduct ch true i
        = ({ success := false, error := some pausedMessage }, []))
    ∧ (∀ (pid name description category priceInBdag : String) (id : ℤ),
        jsTrim name ≠ "" → jsTrim description ≠ "" →
        ¬(priceInBdag = "" ∨ jsLeZero (jsParseFloat priceInBdag) = true) →
        (∀ pw : ℕ, parseEtherModel priceInBdag = some pw →
          jsParseInt pid = some id → ¬ id ≤ 0 →
          hookUpdateProduct ch true pid name description category priceInBdag
            = ({ success := false, error := some pausedMessage }, [])))
    ∧ (∀ (pid : String) (id : ℤ) (p : OnChainProduct) (v : ℕ),
        jsParseInt pid = some id → ¬ id ≤ 0 → ch.products id = CallResult.ok p →
        p.price = v →
        hookPurchaseProduct ch true pid v
          = ({ success := false, error := some pausedMessage },
             [TxAction.viewProducts id])
        ∧ ∀ a ∈ (hookPurchaseProduct ch true pid v).2, a.stateChanging = false)
    ∧ handlePauseErrorDetects pausedMessage = true
    ∧ handlePauseErrorDetects "Product name required" = false
    ∧ handlePauseErrorDetects "Price mismatch" = false := by
  refine ⟨?_, ?_, ?_, by decide, by decide, by decide⟩
  · intro i pw hval
    rw [hookCreateProduct, hval]
    unfold createGasStage
    rw [Chain.gasForCreate, if_pos hp]
    rfl
  · intro pid name description category priceInBdag id h1 h2 h3 pw hpw hj hid
    rw [hookUpdateProduct, if_neg h1, if_neg h2, if_neg h3, getContractCheck_true]
    simp only
    rw [hpw]
    simp only
    rw [hj]
    simp only
    rw [if_neg hid, Chain.submitUpdateR, if_pos hp]
    rfl
  · intro pid id p v hj hid hprod hpv
    have hmain : hookPurchaseProduct ch true pid v
        = ({ success := false, error := some pausedMessage },
           [TxAction.viewProducts id]) := by
      rw [hookPurchaseProduct, hj]
      simp only
      rw [if_neg hid, getContractCheck_true]
      simp only
      rw [hprod]
      simp only
      rw [if_neg (by
        rw [hpv]
        exact fun h => h rfl), Chain.submitPurchaseR, if_pos hp]
      rfl
    refine ⟨hmain, ?_⟩
    rw [hmain]
    intro a ha
    simp only [List.mem_singleton] at ha
    subst ha
    rfl

/-- A paused chain environment, otherwise benign. -/
def pausedChain : Chain := { okChain with paused := true }

/-- **C3**, witness: with the ledger paused, all three operations at
well-formed concrete inputs fail with the pause message and submit
nothing. -/
theorem c3_pause_gate_witness :
    hookCreateProduct pausedChain true
        { name := "n", description := "d", category := "Art",
          priceInBdag := "1", uri := "u", thumbnailUri := "t" }
      = ({ success := false, error := some pausedMessage }, [])
    ∧ hookUpdateProduct pausedChain true "1" "n" "d" "Art" "1"
      = ({ success := false, error := some pausedMessage }, [])
    ∧ hookPurchaseProduct pausedChain true "1" 1000
      = ({ success := false, error := some pausedMessage },
         [TxAction.viewProducts 1]) :=
  have h := c3_pause_gate pausedChain rfl
  ⟨h.1 _ (etherWei ['1'] []) (hookCreateValidate_pass _ _ (by decide) (by decide)
      (@jsLeZero_parseFloat_digits "1" ['1'] (by decide) (by decide)) (by decide)
      (by decide) (by decide) (@parseEtherModel_eq "1" ['1'] [] (by decide) (by decide))
      (by decide) (by decide) (by decide) (by decide)),
   h.2.1 "1" "n" "d" "Art" "1" 1 (by decide) (by decide)
      (by
        rw [@jsLeZero_parseFloat_digits "1" ['1'] (by decide) (by decide)]
        simp)
      (etherWei ['1'] []) (@parseEtherModel_eq "1" ['1'] [] (by decide) (by decide))
      (by decide) (by decide),
   (h.2.2.1 "1" 1 { price := 1000 } 1000 (by decide) (by decide) rfl rfl).1⟩

/-- **C8**, witness: at the unparsable id `"abc"` all three operations
reject before any chain interaction. -/
theorem c8_invalid_product_id_witness :
    hookPurchaseProduct okChain true "abc" 5
      = ({ success := false, error := some "Invalid product ID" }, [])
    ∧ hookUpdateProduct okChain true "abc" "n" "d" "Art" "1"
      = ({ success := false, error := some "Invalid product ID" }, [])
    ∧ hookGetProduct okChain true "abc" = (none, []) :=
  have h := c8_invalid_product_id.1 okChain "abc" 5 "n" "d" "Art" "1"
    (Or.inl (by decide))
  ⟨h.1,
   h.2.1 (by decide) (by decide)
     (by
       rw [@jsLeZero_parseFloat_digits "1" ['1'] (by decide) (by decide)]
       simp)
     ⟨etherWei ['1'] [], @parseEtherModel_eq "1" ['1'] [] (by decide) (by decide)⟩,
   h.2.2⟩

/-- **C10.**  Once the `createProduct` transaction is submitted (a hash is
obtained), a wait failure or a missing receipt still yields
`{success := true}` with that hash — success does not guarantee on-chain
commitment — whereas a receipt with status 0 is reported as a failure. -/
theorem c10_create_success_without_receipt (ch : Chain) (i : CreateInput)
    (pw g : ℕ) (hash : String) (hnp : ch.paused = false)
    (hval : hookCreateValidate true i = Except.ok pw)
    (hgas : ch.createGas = CallResult.ok g)
    (hsub : ch.createSubmit = CallResult.ok hash) :
    (∀ e, ch.createWait = WaitResult.failed e →
      hookCreateProduct ch true i
        = ({ success := true, transactionHash := some hash },
           [TxAction.submitCreate (jsTrim i.name) (jsTrim i.description)
             (jsTrim i.category) pw (jsTrim i.uri) (jsTrim i.thumbnailUri)
             (g * 120 / 100)]))
    ∧ (ch.createWait = WaitResult.noReceipt →
        hookCreateProduct ch true i
          = ({ success := true, transactionHash := some hash },
             [TxAction.submitCreate (jsTrim i.name) (jsTrim i.description)
               (jsTrim i.category) pw (jsTrim i.uri) (jsTrim i.thumbnailUri)
               (g * 120 / 100)]))
    ∧ (∀ rh, ch.createWait = WaitResult.receipt 0 rh →
        hookCreateProduct ch true i
          = ({ success := false, error := some "Transaction failed on blockchain" },
             [TxAction.submitCreate (jsTrim i.name) (jsTrim i.description)
               (jsTrim i.category) pw (jsTrim i.uri) (jsTrim i.thumbnailUri)
               (g * 120 / 100)])) := by
  have hstage : hookCreateProduct ch true i
      = createSubmitStage ch i pw (g * 120 / 100) := by
    rw [hookCreateProduct, hval]
    unfold createGasStage
    rw [Chain.gasForCreate, if_neg (by rw [hnp]; exact Bool.false_ne_true), hgas]
  have hsubr : ch.submitCreateR = CallResult.ok hash := by
    rw [Chain.submitCreateR, if_neg (by rw [hnp]; exact Bool.false_ne_true), hsub]
  refine ⟨?_, ?_, ?_⟩
  · intro e hw
    rw [hstage]
    unfold createSubmitStage
    rw [hsubr]
    simp only
    rw [hw]
  · intro hw
    rw [hstage]
    unfold createSubmitStage
    rw [hsubr]
    simp only
    rw [hw]
  · intro rh hw
    rw [hstage]
    unfold createSubmitStage
    rw [hsubr]
    simp only
    rw [hw]
    simp only [if_pos rfl]
    rfl

/-- A chain whose wait for the creation receipt fails (timeout). -/
def timeoutChain : Chain :=
  { okChain with createWait := WaitResult.failed (plainErr "Transaction wait timeout") }

/-- **C10**, witness: on a timed-out wait the hook reports success with the
submission hash even though no receipt confirmed the creation. -/
theorem c10_create_success_without_receipt_witness :
    hookCreateProduct timeoutChain true
        { name := "n", description := "d", category := "Art",
          priceInBdag := "1", uri := "u", thumbnailUri := "t" }
      = ({ success := true, transactionHash := some "0xcreate" },
         [TxAction.submitCreate "n" "d" "Art" (etherWei ['1'] []) "u" "t"
           (100000 * 120 / 100)]) :=
  (c10_create_success_without_receipt timeoutChain
      { name := "n", description := "d", category := "Art",
        priceInBdag := "1", uri := "u", thumbnailUri := "t" }
      (etherWei ['1'] []) 100000 "0xcreate" rfl
      (hookCreateValidate_pass _ _ (by decide) (by decide)
        (@jsLeZero_parseFloat_digits "1" ['1'] (by decide) (by decide)) (by decide)
        (by decide) (by decide)
        (@parseEtherModel_eq "1" ['1'] [] (by decide) (by decide))
        (by decide) (by decide) (by decide) (by decide))
      rfl rfl).1 (plainErr "Transaction wait timeout") rfl

/-- **C6.**  `hasUserPurchased` is total (it returns a plain boolean) and
every failure path — invalid address, unparsable or non-positive id, or an
error from the chain view — yields `false`; only a successful view call
determines the answer. -/
theorem c6_has_user_purchased_total :
    (∀ (ch : Chain) (signer : Bool) (pid addr : String),
      ethersIsAddress addr = false →
      hookHasUserPurchased ch signer pid addr = (false, []))
    ∧ (∀ (ch : Chain) (signer : Bool) (pid addr : String),
        jsParseInt pid = none →
        hookHasUserPurchased ch signer pid addr = (false, []))
    ∧ (∀ (ch : Chain) (signer : Bool) (pid addr : String) (id : ℤ),
        jsParseInt pid = some id → id ≤ 0 →
        hookHasUserPurchased ch signer pid addr = (false, []))
    ∧ (∀ (ch : Chain) (pid addr : String) (id : ℤ) (e : ContractError),
        ethersIsAddress addr = true → jsParseInt pid = some id → ¬ id ≤ 0 →
        ch.hasPurchasedView id addr = CallResult.err e →
        hookHasUserPurchased ch true pid addr
          = (false, [TxAction.viewHasPurchased id addr]))
    ∧ (∀ (ch : Chain) (pid addr : String) (id : ℤ) (b : Bool),
        ethersIsAddress addr = true → jsParseInt pid = some id → ¬ id ≤ 0 →
        ch.hasPurchasedView id addr = CallResult.ok b →
        hookHasUserPurchased ch true pid addr
          = (b, [TxAction.viewHasPurchased id addr])) := by
  refine ⟨?_, ?_, ?_, ?_, ?_⟩
  · intro ch signer pid addr haddr
    rw [hookHasUserPurchased, if_pos haddr]
  · intro ch signer pid addr hj
    rw [hookHasUserPurchased]
    by_cases haddr : ethersIsAddress addr = false
    · rw [if_pos haddr]
    · rw [if_neg haddr]
      cases hgc : getContractCheck signer with
      | error m => rfl
      | ok u =>
        simp only
        rw [hj]
  · intro ch signer pid addr id hj hle
    rw [hookHasUserPurchased]
    by_cases haddr : ethersIsAddress addr = false
    · rw [if_pos haddr]
    · rw [if_neg haddr]
      cases hgc : getContractCheck signer with
      | error m => rfl
      | ok u =>
        simp only
        rw [hj]
        simp only
        rw [if_pos hle]
  · intro ch pid addr id e haddr hj hle hv
    rw [hookHasUserPurchased,
      if_neg (by rw [haddr]; exact fun h => Bool.noConfusion h), getContractCheck_true]
    simp only
    rw [hj]
    simp only
    rw [if_neg hle, hv]
  · intro ch pid addr id b haddr hj hle hv
    rw [hookHasUserPurchased,
      if_neg (by rw [haddr]; exact fun h => Bool.noConfusion h), getContractCheck_true]
    simp only
    rw [hj]
    simp only
    rw [if_neg hle, hv]

/-- **C6**, witness: an invalid address yields `false` without any chain
interaction, and a successful lookup passes the chain's boolean through. -/
theorem c6_has_user_purchased_total_witness :
    hookHasUserPurchased okChain true "1" "nope" = (false, [])
    ∧ hookHasUserPurchased okChain true "1"
        "0xaaaaaaaaaaaaaaaaaaaaaaaaaaaaaaaaaaaaaaaa"
      = (true, [TxAction.viewHasPurchased 1
          "0xaaaaaaaaaaaaaaaaaaaaaaaaaaaaaaaaaaaaaaaa"]) :=
  ⟨c6_has_user_purchased_total.1 okChain true "1" "nope" (by decide),
   c6_has_user_purchased_total.2.2.2.2 okChain "1"
     "0xaaaaaaaaaaaaaaaaaaaaaaaaaaaaaaaaaaaaaaaa" 1 true
     (by decide) (by decide) (by decide) rfl⟩

/-- **C7.**  The read-only queries never propagate an error: when the
underlying view call fails (or the input is rejected locally),
`getAvailableProducts`, `getSellerProducts` and `getProductsByCategory`
return the empty list and `getProduct` and `getMarketplaceStats` return
`none`, always as total functions. -/
theorem c7_queries_never_raise :
    (∀ (ch : Chain) (e : ContractError), ch.availableView = CallResult.err e →
      hookGetAvailableProducts ch true = ([], [TxAction.viewAvailable]))
    ∧ (∀ (ch : Chain) (addr : String), ethersIsAddress addr = false →
        hookGetSellerProducts ch true addr = ([], []))
    ∧ (∀ (ch : Chain) (addr : String) (e : ContractError),
        ethersIsAddress addr = true → ch.sellerView addr = CallResult.err e →
        hookGetSellerProducts ch true addr = ([], [TxAction.viewSeller addr]))
    ∧ (∀ (ch : Chain) (cat : String), jsTrim cat = "" →
        hookGetProductsByCategory ch true cat = ([], []))
    ∧ (∀ (ch : Chain) (cat : String) (e : ContractError), jsTrim cat ≠ "" →
        ch.categoryView (jsTrim cat) = CallResult.err e →
        hookGetProductsByCategory ch true cat
          = ([], [TxAction.viewCategory (jsTrim cat)]))
    ∧ (∀ (ch : Chain) (pid : String) (id : ℤ) (e : ContractError),
        jsParseInt pid = some id → ¬ id ≤ 0 →
        ch.getProductView id = CallResult.err e →
        hookGetProduct ch true pid = (none, [TxAction.viewGetProduct id]))
    ∧ (∀ (ch : Chain) (e : ContractError), ch.statsView = CallResult.err e →
        hookGetMarketplaceStats ch true = (none, [TxAction.viewStats])) := by
  refine ⟨?_, ?_, ?_, ?_, ?_, ?_, ?_⟩
  · intro ch e hv
    rw [hookGetAvailableProducts, getContractCheck_true]
    simp only
    rw [hv]
  · intro ch addr haddr
    rw [hookGetSellerProducts, if_pos haddr]
  · intro ch addr e haddr hv
    rw [hookGetSellerProducts,
      if_neg (by rw [haddr]; exact fun h => Bool.noConfusion h),
      getContractCheck_true]
    simp only
    rw [hv]
  · intro ch cat hcat
    rw [hookGetProductsByCategory, if_pos hcat]
  · intro ch cat e hcat hv
    rw [hookGetProductsByCategory, if_neg hcat, getContractCheck_true]
    simp only
    rw [hv]
  · intro ch pid id e hj hle hv
    rw [hookGetProduct, getContractCheck_true]
    simp only
    rw [hj]
    simp only
    rw [if_neg hle, hv]
  · intro ch e hv
    rw [hookGetMarketplaceStats, getContractCheck_true]
    simp only
    rw [hv]

/-- A chain whose every view call fails. -/
def errChain : Chain :=
  { okChain with
    availableView := CallResult.err (plainErr "boom")
    sellerView := fun _ => CallResult.err (plainErr "boom")
    categoryView := fun _ => CallResult.err (plainErr "boom")
    getProductView := fun _ => CallResult.err (plainErr "boom")
    statsView := CallResult.err (plainErr "boom") }

/-- **C7**, witness: with every view failing, all five queries fall back to
the empty list or `none`. -/
theorem c7_queries_never_raise_witness :
    hookGetAvailableProducts errChain true = ([], [TxAction.viewAvailable])
    ∧ hookGetSellerProducts errChain true
        "0xaaaaaaaaaaaaaaaaaaaaaaaaaaaaaaaaaaaaaaaa"
      = ([], [TxAction.viewSeller "0xaaaaaaaaaaaaaaaaaaaaaaaaaaaaaaaaaaaaaaaa"])
    ∧ hookGetProductsByCategory errChain true "Art"
      = ([], [TxAction.viewCategory (jsTrim "Art")])
    ∧ hookGetProduct errChain true "1" = (none, [TxAction.viewGetProduct 1])
    ∧ hookGetMarketplaceStats errChain true = (none, [TxAction.viewStats]) :=
  ⟨c7_queries_never_raise.1 errChain (plainErr "boom") rfl,
   c7_queries_never_raise.2.2.1 errChain
     "0xaaaaaaaaaaaaaaaaaaaaaaaaaaaaaaaaaaaaaaaa" (plainErr "boom")
     (by decide) rfl,
   c7_queries_never_raise.2.2.2.2.1 errChain "Art" (plainErr "boom")
     (by decide) rfl,
   c7_queries_never_raise.2.2.2.2.2.1 errChain "1" 1 (plainErr "boom")
     (by decide) (by decide) rfl,
   c7_queries_never_raise.2.2.2.2.2.2 errChain (plainErr "boom") rfl⟩
